import Mathlib

/-!
# History dialect of `pop`: shallow embedding and verified properties

The development follows `dialect_history.go`, `join.go` and `query_joins.go`.

* Go values of type `interface{}` are the inductive `GoValue`; a `time.Time`
  is a natural number (an instant on a totally ordered clock).
* Go `error` values are `Option GoError` (`none` is `nil`).
* Stateful collaborators (the executor `store`, the wrapped base `dialect`, the
  wrapped `fizz.Translator`) are records of state-passing functions over an
  arbitrary state type, so that "is never invoked" is visible as "the state is
  unchanged, whatever the collaborator is".
* `time.Now().UTC()` is an explicit argument `now` of each operation.
-/

namespace Pop

/-! ## Values and errors -/

/-- Go values that travel as `interface{}`: executor arguments, entity ids, option values. -/
inductive GoValue where
  | null
  | bool (b : Bool)
  | int (n : Int)
  | str (s : String)
  | time (t : Nat)
deriving DecidableEq, Repr

/-- Go error values: `errors.New msg`, and a non-nil error wrapped by `errors.Wrap`. -/
inductive GoError where
  | new (msg : String)
  | wrapped (cause : GoError) (label : String)
deriving DecidableEq, Repr

/-- The function `errors.Wrap`: `nil` stays `nil`, any other error is annotated with the label. -/
def errorsWrap : Option GoError → String → Option GoError
  | none, _ => none
  | some e, label => some (GoError.wrapped e label)

/-- The function `strings.HasSuffix`. -/
def HasSuffix (s suffix : String) : Bool :=
  suffix.data.isSuffixOf s.data

/-! ## Entities, column sets, executor and dialect -/

/-- A Go struct value, as its fields in declaration order. -/
abbrev GoStruct := List (String × GoValue)

/-- The type `Model` of the package: the wrapped value with the three accessors the history code
reads (`TableName()`, `IDField()`, `ID()`). -/
structure Model where
  Value : GoStruct
  TableName : String
  IDField : String
  ID : GoValue
deriving DecidableEq, Repr

/-- The operations of package `columns` used by `insertHistory`, over an abstract column-set
type `κ` (the package is a collaborator and is taken as a parameter). In-place `Add` returns the
updated set. -/
structure ColumnsPkg (κ : Type) where
  ForStruct : GoStruct → String → κ
  Add : κ → String → κ
  Readable : κ → κ
  Writeable : κ → κ
  QuotedString : κ → (String → String) → String
  SelectString : κ → String

/-- The interface `store`: `Exec(sql, args...)` acting on an executor state `σ`; the discarded
`sql.Result` is not modelled. -/
structure store (σ : Type) where
  Exec : String → List GoValue → σ → σ × Option GoError

/-- What a dialect operation leaves behind: the executor state, the model (passed by pointer, so
the base dialect may update it, e.g. assign the id) and the returned error. -/
structure OpResult (σ : Type) where
  store : σ
  model : Model
  err : Option GoError

/-- The part of interface `dialect` that `historyDB` uses or overrides. -/
structure dialect (σ κ : Type) where
  Quote : String → String
  TranslateSQL : String → String
  Create : σ → Model → κ → OpResult σ
  Update : σ → Model → κ → OpResult σ
  Destroy : σ → Model → OpResult σ

/-- The struct `historyDB`: the embedded base dialect and the suffix (the reflection mapper is
never read by the methods below). -/
structure historyDB (σ κ : Type) where
  dialect : dialect σ κ
  Suffix : String

/-- The SQL text built by `insertHistory` (the `fmt.Sprintf` of lines 50-57, passed through
`TranslateSQL`). -/
def historyDB.insertHistorySQL {σ κ : Type} (C : ColumnsPkg κ) (h : historyDB σ κ)
    (m : Model) : String :=
  let idField := m.IDField
  let cols := C.Add (C.ForStruct m.Value m.TableName) idField
  let r := C.Readable cols
  let w := C.Add (C.Writeable cols) idField
  let createdAt := h.dialect.Quote "created_at"
  let deletedAt := h.dialect.Quote "deleted_at"
  h.dialect.TranslateSQL
    ("INSERT INTO " ++ h.dialect.Quote (m.TableName ++ h.Suffix) ++ " ("
      ++ C.QuotedString w h.dialect.Quote ++ ", " ++ createdAt ++ ", " ++ deletedAt
      ++ ")\n\t\tSELECT " ++ C.SelectString r ++ ", ? AS " ++ createdAt
      ++ ", NULL AS " ++ deletedAt
      ++ "\n\t\tFROM " ++ h.dialect.Quote m.TableName ++ " WHERE " ++ h.dialect.Quote idField
      ++ " = ?")

/-- The method `historyDB.insertHistory`: one `Exec` with arguments `t, id`. -/
def historyDB.insertHistory {σ κ : Type} (C : ColumnsPkg κ) (S : store σ) (h : historyDB σ κ)
    (s : σ) (m : Model) (t : Nat) : σ × Option GoError :=
  let id := m.ID
  S.Exec (h.insertHistorySQL C m) [GoValue.time t, id] s

/-- The SQL text built by `deleteHistory` (the `fmt.Sprintf` of lines 67-73, passed through
`TranslateSQL`). -/
def historyDB.deleteHistorySQL {σ κ : Type} (h : historyDB σ κ) (m : Model) : String :=
  let idField := m.IDField
  let deletedAt := h.dialect.Quote "deleted_at"
  h.dialect.TranslateSQL
    ("UPDATE " ++ h.dialect.Quote (m.TableName ++ h.Suffix)
      ++ "\n\t\tSET " ++ deletedAt ++ " = ?"
      ++ "\n\t\tWHERE " ++ h.dialect.Quote idField ++ " = ? AND " ++ deletedAt ++ " IS NULL;")

/-- The method `historyDB.deleteHistory`: one `Exec` with arguments `t, id`. -/
def historyDB.deleteHistory {σ κ : Type} (S : store σ) (h : historyDB σ κ)
    (s : σ) (m : Model) (t : Nat) : σ × Option GoError :=
  let id := m.ID
  S.Exec (h.deleteHistorySQL m) [GoValue.time t, id] s

/-- The method `historyDB.Create`; `now` is the value of `time.Now().UTC()`. -/
def historyDB.Create {σ κ : Type} (C : ColumnsPkg κ) (S : store σ) (h : historyDB σ κ)
    (s : σ) (m : Model) (c : κ) (now : Nat) : OpResult σ :=
  let r := h.dialect.Create s m c
  match r.err with
  | some _ => r
  | none =>
    let t := now
    let i := h.insertHistory C S r.store r.model t
    { store := i.1, model := r.model, err := errorsWrap i.2 "historical insert" }

/-- The method `historyDB.Update`; `now` is the value of `time.Now().UTC()`. -/
def historyDB.Update {σ κ : Type} (C : ColumnsPkg κ) (S : store σ) (h : historyDB σ κ)
    (s : σ) (m : Model) (c : κ) (now : Nat) : OpResult σ :=
  let r := h.dialect.Update s m c
  match r.err with
  | some _ => r
  | none =>
    let t := now
    let d := h.deleteHistory S r.store r.model t
    match errorsWrap d.2 "historical delete" with
    | some e => { store := d.1, model := r.model, err := some e }
    | none =>
      let i := h.insertHistory C S d.1 r.model t
      { store := i.1, model := r.model, err := errorsWrap i.2 "historical insert" }

/-- The method `historyDB.Destroy`; `now` is the value of `time.Now().UTC()`. -/
def historyDB.Destroy {σ κ : Type} (S : store σ) (h : historyDB σ κ)
    (s : σ) (m : Model) (now : Nat) : OpResult σ :=
  let r := h.dialect.Destroy s m
  match r.err with
  | some _ => r
  | none =>
    let t := now
    let d := h.deleteHistory S r.store r.model t
    { store := d.1, model := r.model, err := errorsWrap d.2 "historical delete" }

/-- One call of `Exec` as seen by the executor. -/
structure ExecCall where
  sql : String
  args : List GoValue
deriving DecidableEq, Repr

/-- An executor that behaves as `S` and also appends every call it receives to a log kept next to
its state. Running the history operations on it shows the statements they issue. -/
def recording {σ : Type} (S : store σ) : store (σ × List ExecCall) where
  Exec sql args s :=
    let r := S.Exec sql args s.1
    ((r.1, s.2 ++ [{ sql := sql, args := args }]), r.2)

/-- The call that `insertHistory` issues for model `m` at instant `t`. -/
def insertCall {σ κ : Type} (C : ColumnsPkg κ) (h : historyDB σ κ) (m : Model) (t : Nat) :
    ExecCall :=
  { sql := h.insertHistorySQL C m, args := [GoValue.time t, m.ID] }

/-- The call that `deleteHistory` issues for model `m` at instant `t`. -/
def closeCall {σ κ : Type} (h : historyDB σ κ) (m : Model) (t : Nat) : ExecCall :=
  { sql := h.deleteHistorySQL m, args := [GoValue.time t, m.ID] }

/-! ## Table descriptions and the schema translator -/

/-- The type `fizz.Options` (`map[string]interface{}`) as an association list; a `nil` map and an
empty map are both the empty list. -/
abbrev Options := List (String × GoValue)

/-- Map assignment `o[k] = v`. -/
def Options.set (o : Options) (k : String) (v : GoValue) : Options :=
  (k, v) :: o.filter (fun kv => kv.1 != k)

/-- The type `fizz.Column`. -/
structure Column where
  Name : String
  ColType : String
  Primary : Bool
  Options : Options
deriving DecidableEq, Repr

/-- The type `fizz.Index`. -/
structure Index where
  Name : String
  Columns : List String
  Unique : Bool
  Options : Options
deriving DecidableEq, Repr

/-- The type `fizz.ForeignKey` (the reference is the referenced table and its columns). -/
structure ForeignKey where
  Name : String
  Column : String
  RefTable : String
  RefColumns : List String
  Options : Options
deriving DecidableEq, Repr

/-- The type `fizz.Table`. -/
structure Table where
  Name : String
  Columns : List Column
  Indexes : List Index
  ForeignKeys : List ForeignKey
  primaryKeys : List String
  Options : Options
deriving DecidableEq, Repr

/-- Modelled from the spec: `fizz.Table.DisableTimestamps` is library code that is not under
src/. It disables the automatic timestamp columns by setting the option `timestamps` of the
description to `false`, and changes nothing else. -/
def Table.DisableTimestamps (t : Table) : Table :=
  { t with Options := t.Options.set "timestamps" (GoValue.bool false) }

/-- Modelled from the spec: `fizz.Table.Column` is library code that is not under src/. It adds
one column descriptor with the given name, type and options to the description: appended after
the existing columns (a column named `id` goes first), flagged primary when the options hold the
key `primary`; it fails when the description already has a column of that name, or on a second
primary key. `CreateTable` calls it for `created_at` and `deleted_at` only. -/
def Table.Column (t : Table) (name colType : String) (options : Pop.Options) :
    Except GoError Table :=
  if t.Columns.any (fun c => c.Name == name) then
    Except.error (GoError.new ("duplicate column " ++ name))
  else if (options.lookup "primary").isSome && !t.primaryKeys.isEmpty then
    Except.error (GoError.new "could not define multiple primary keys")
  else
    let primary := (options.lookup "primary").isSome
    let c : Pop.Column := { Name := name, ColType := colType, Primary := primary, Options := options }
    let pks := if primary then [name] else t.primaryKeys
    if name == "id" then
      Except.ok { t with Columns := c :: t.Columns, primaryKeys := pks }
    else
      Except.ok { t with Columns := t.Columns ++ [c], primaryKeys := pks }

/-- What a translator operation returns: the SQL text and the error. -/
abbrev Emitted := String × Option GoError

/-- The operations of interface `fizz.Translator` that `historyTranslator` overrides, as
state-passing functions over the wrapped translator's state `τ`. -/
structure Translator (τ : Type) where
  CreateTable : Table → τ → Emitted × τ
  DropTable : Table → τ → Emitted × τ
  RenameTable : List Table → τ → Emitted × τ
  AddColumn : Table → τ → Emitted × τ
  ChangeColumn : Table → τ → Emitted × τ
  DropColumn : Table → τ → Emitted × τ
  RenameColumn : Table → τ → Emitted × τ

/-- The struct `historyTranslator`. -/
structure historyTranslator (τ : Type) where
  Translator : Translator τ
  Suffix : String

/-- The error raised by the guard of the schema operations. -/
def errAlreadyHistorical : GoError :=
  GoError.new "operation already applies to historical tables"

/-- The method `historyTranslator.apply`. -/
def historyTranslator.apply {τ : Type} (h : historyTranslator τ)
    (f : Table → τ → Emitted × τ) (t : Table) (st : τ) : Emitted × τ :=
  if HasSuffix t.Name h.Suffix then
    (("", some errAlreadyHistorical), st)
  else
    let r1 := f t st
    match r1.1.2 with
    | some err => (("", some err), r1.2)
    | none =>
      let t1 : Table :=
        { t with
          Name := t.Name ++ h.Suffix
          Indexes := t.Indexes.map (fun i => { i with Unique := false }) }
      let r2 := f t1 r1.2
      ((r1.1.1 ++ "\n" ++ r2.1.1, r2.1.2), r2.2)

/-- The method `historyTranslator.CreateTable`. -/
def historyTranslator.CreateTable {τ : Type} (h : historyTranslator τ) (t : Table) (st : τ) :
    Emitted × τ :=
  let t := t.DisableTimestamps
  let r1 := h.Translator.CreateTable t st
  match r1.1.2 with
  | some err => (("", some err), r1.2)
  | none =>
    let t : Table :=
      { t with
        Name := t.Name ++ h.Suffix
        ForeignKeys := []
        Indexes := []
        Columns := t.Columns.map (fun c => { c with Primary := false }) }
    match t.Column "created_at" "timestamp" [] with
    | Except.error err => (("", errorsWrap (some err) "historical table"), r1.2)
    | Except.ok t =>
      match t.Column "deleted_at" "timestamp" [("null", GoValue.bool true)] with
      | Except.error err => (("", errorsWrap (some err) "historical table"), r1.2)
      | Except.ok t =>
        let r2 := h.Translator.CreateTable t r1.2
        ((r1.1.1 ++ "\n" ++ r2.1.1, r2.1.2), r2.2)

/-- The method `historyTranslator.DropTable`. -/
def historyTranslator.DropTable {τ : Type} (h : historyTranslator τ) (t : Table) (st : τ) :
    Emitted × τ :=
  h.apply h.Translator.DropTable t st

/-- The method `historyTranslator.RenameTable`. The result is `none` when the Go code stops with
an index-out-of-range panic: `t[0]` on an empty list, or `t[1]` on a one-element list whose first
name does not bear the suffix (the `||` does not evaluate `t[1]` when `t[0]` bears it). -/
def historyTranslator.RenameTable {τ : Type} (h : historyTranslator τ) (t : List Table)
    (st : τ) : Option (Emitted × τ) :=
  match t with
  | [] => none
  | [t0] =>
    if HasSuffix t0.Name h.Suffix then some (("", some errAlreadyHistorical), st) else none
  | t0 :: t1 :: rest =>
    if HasSuffix t0.Name h.Suffix || HasSuffix t1.Name h.Suffix then
      some (("", some errAlreadyHistorical), st)
    else
      let r1 := h.Translator.RenameTable (t0 :: t1 :: rest) st
      match r1.1.2 with
      | some err => some (("", some err), r1.2)
      | none =>
        let t0 : Table := { t0 with Name := t0.Name ++ h.Suffix }
        let t1 : Table := { t1 with Name := t1.Name ++ h.Suffix }
        let r2 := h.Translator.RenameTable (t0 :: t1 :: rest) r1.2
        some ((r1.1.1 ++ "\n" ++ r2.1.1, r2.1.2), r2.2)

/-- The method `historyTranslator.AddColumn`. -/
def historyTranslator.AddColumn {τ : Type} (h : historyTranslator τ) (t : Table) (st : τ) :
    Emitted × τ :=
  h.apply h.Translator.AddColumn t st

/-- The method `historyTranslator.ChangeColumn`. -/
def historyTranslator.ChangeColumn {τ : Type} (h : historyTranslator τ) (t : Table) (st : τ) :
    Emitted × τ :=
  h.apply h.Translator.ChangeColumn t st

/-- The method `historyTranslator.DropColumn`. -/
def historyTranslator.DropColumn {τ : Type} (h : historyTranslator τ) (t : Table) (st : τ) :
    Emitted × τ :=
  h.apply h.Translator.DropColumn t st

/-- The method `historyTranslator.RenameColumn`. -/
def historyTranslator.RenameColumn {τ : Type} (h : historyTranslator τ) (t : Table) (st : τ) :
    Emitted × τ :=
  h.apply h.Translator.RenameColumn t st

/-- The five schema operations that go through `historyTranslator.apply`. -/
inductive GuardedOp where
  | DropTable
  | AddColumn
  | ChangeColumn
  | DropColumn
  | RenameColumn
deriving DecidableEq, Repr

/-- The wrapped translator's operation of that name. -/
def Translator.guarded {τ : Type} (b : Translator τ) : GuardedOp → Table → τ → Emitted × τ
  | GuardedOp.DropTable => b.DropTable
  | GuardedOp.AddColumn => b.AddColumn
  | GuardedOp.ChangeColumn => b.ChangeColumn
  | GuardedOp.DropColumn => b.DropColumn
  | GuardedOp.RenameColumn => b.RenameColumn

/-- The history translator's operation of that name. -/
def historyTranslator.guarded {τ : Type} (h : historyTranslator τ) :
    GuardedOp → Table → τ → Emitted × τ
  | GuardedOp.DropTable => h.DropTable
  | GuardedOp.AddColumn => h.AddColumn
  | GuardedOp.ChangeColumn => h.ChangeColumn
  | GuardedOp.DropColumn => h.DropColumn
  | GuardedOp.RenameColumn => h.RenameColumn

/-- A translator that renders each operation as its verb and the table name, and keeps the list
of the descriptions it was asked to render, in call order (`RenameTable` logs every table of its
list). -/
def listingTranslator : Translator (List Table) where
  CreateTable t st := (("CREATE TABLE " ++ t.Name ++ ";", none), st ++ [t])
  DropTable t st := (("DROP TABLE " ++ t.Name ++ ";", none), st ++ [t])
  RenameTable ts st :=
    (("RENAME TABLE " ++ " TO ".intercalate (ts.map (fun t => t.Name)) ++ ";", none), st ++ ts)
  AddColumn t st := (("ADD COLUMN " ++ t.Name ++ ";", none), st ++ [t])
  ChangeColumn t st := (("CHANGE COLUMN " ++ t.Name ++ ";", none), st ++ [t])
  DropColumn t st := (("DROP COLUMN " ++ t.Name ++ ";", none), st ++ [t])
  RenameColumn t st := (("RENAME COLUMN " ++ t.Name ++ ";", none), st ++ [t])

/-- The history translator with suffix `_history` over `listingTranslator`. -/
def listingHistory : historyTranslator (List Table) :=
  { Translator := listingTranslator, Suffix := "_history" }

/-- The description `users(id, email)` with a unique index on `email`. -/
def usersTable : Table :=
  { Name := "users"
    Columns :=
      [{ Name := "id", ColType := "integer", Primary := true, Options := [] },
       { Name := "email", ColType := "string", Primary := false, Options := [] }]
    Indexes :=
      [{ Name := "users_email_idx", Columns := ["email"], Unique := true, Options := [] }]
    ForeignKeys := []
    primaryKeys := ["id"]
    Options := [] }

/-! ## Queries -/

/-- The type `clause`: an SQL fragment and its positional arguments. -/
structure clause where
  Fragment : String
  Arguments : List GoValue
deriving DecidableEq, Repr

/-- The type `clauses`. -/
abbrev clauses := List clause

/-- The type `joinClause`. -/
structure joinClause where
  JoinType : String
  Table : String
  On : clauses
deriving DecidableEq, Repr

/-- The type `joinClauses`. -/
abbrev joinClauses := List joinClause

/-- The fields of `Query` that the history dialect and the join builders read or write. -/
structure Query where
  RawSQL : clause
  whereClauses : clauses
  globalClauses : clauses
  joinClauses : joinClauses
  tablePattern : String
deriving DecidableEq, Repr

/-- The text of the validity predicate of `QueryHistory`. -/
def historyFragment : String :=
  "created_at <= ? AND (deleted_at IS NULL OR deleted_at > ?)"

/-- The method `historyDB.QueryHistory` (the query is updated in place and returned). -/
def historyDB.QueryHistory {σ κ : Type} (h : historyDB σ κ) (q : Query) (t : Nat) : Query :=
  let c : clause := { Fragment := historyFragment, Arguments := [GoValue.time t, GoValue.time t] }
  { q with
    whereClauses := q.whereClauses ++ [c]
    globalClauses := q.globalClauses ++ [c]
    tablePattern := "%v" ++ h.Suffix }

/-! ## Join clauses -/

/-- The function `strings.Join`. -/
def strings.Join : List String → String → String
  | [], _ => ""
  | [a], _ => a
  | a :: b :: rest, sep => a ++ sep ++ strings.Join (b :: rest) sep

/-- The scan of `strings.ReplaceAll` for a non-empty `old`: left to right, each occurrence of
`old` that starts at the current character is replaced by `new` and its remaining characters are
skipped (`skip` counts them), so the occurrences replaced do not overlap. -/
def strings.replaceScan (old new : List Char) : Nat → List Char → List Char
  | _, [] => []
  | skip + 1, _ :: cs => strings.replaceScan old new skip cs
  | 0, c :: cs =>
    if old.isPrefixOf (c :: cs) then new ++ strings.replaceScan old new (old.length - 1) cs
    else c :: strings.replaceScan old new 0 cs

/-- The function `strings.ReplaceAll`. An empty `old` matches at the start of the string and
after every character. -/
def strings.ReplaceAll (s old new : String) : String :=
  if old.data = [] then
    ⟨new.data ++ (s.data.map (fun c => c :: new.data)).flatten⟩
  else
    ⟨strings.replaceScan old.data new.data 0 s.data⟩

/-- What `fmt.Sprintf` appends for operands that no verb consumed. -/
def fmt.extra : List String → List Char
  | [] => []
  | a :: as =>
    ("%!(EXTRA " ++ strings.Join ((a :: as).map (fun x => "string=" ++ x)) ", " ++ ")").data

/-- The scan of `fmt.Sprintf` over the format, for string operands: `%v` and `%s` print the next
operand as it is, `%%` prints a percent sign, a verb with no operand left prints
`%!v(MISSING)`, a lone `%` at the end prints `%!(NOVERB)`. Flags, widths and the other verbs are
outside this model: any other verb character is rendered as Go renders a verb that does not fit
its operand. -/
def fmt.scan : List Char → List String → List Char
  | [], args => fmt.extra args
  | c :: rest, args =>
    if c = '%' then
      match rest with
      | [] => "%!(NOVERB)".data ++ fmt.extra args
      | v :: rest1 =>
        if v = '%' then '%' :: fmt.scan rest1 args
        else
          match args with
          | [] => ("%!" ++ String.singleton v ++ "(MISSING)").data ++ fmt.scan rest1 []
          | a :: as =>
            if v = 'v' ∨ v = 's' then a.data ++ fmt.scan rest1 as
            else
              ("%!" ++ String.singleton v ++ "(string=" ++ a ++ ")").data ++ fmt.scan rest1 as
    else c :: fmt.scan rest args

/-- The function `fmt.Sprintf` for string operands. -/
def fmt.Sprintf (format : String) (args : List String) : String :=
  ⟨fmt.scan format.data args⟩

/-- Modelled from the spec: the method `clauses.Join` of this package is not under src/. It
composes the clauses' SQL fragments, in list order, with the separator between them. -/
def clauses.Join (c : clauses) (sep : String) : String :=
  strings.Join (c.map (fun cl => cl.Fragment)) sep

/-- Modelled from the spec: the method `clauses.Args` of this package is not under src/. It is
the clauses' positional arguments, clause after clause in list order. -/
def clauses.Args (c : clauses) : List GoValue :=
  (c.map (fun cl => cl.Arguments)).flatten

/-- The method `joinClause.String`. -/
def joinClause.String (c : joinClause) : String :=
  let sql := c.JoinType ++ " " ++ c.Table
  if c.On.length > 0 then sql ++ (" ON " ++ clauses.Join c.On " AND ") else sql

/-- The method `joinClause.Args`. -/
def joinClause.Args (c : joinClause) : List GoValue :=
  clauses.Args c.On

/-- The method `joinClauses.String`. -/
def joinClauses.String (c : joinClauses) : String :=
  strings.Join (c.map (fun cl => cl.String)) " "

/-- The method `Query.join`. The constant `AliasToken` is declared outside src/ and is taken as
a parameter; `onSQL` is the parameter `on`. The loop over `q.globalClauses` writes the substituted fragments back into the
query's own list; the log line of the raw-SQL branch is not modelled. -/
def Query.join (AliasToken : String) (q : Query) (joinType table onSQL : String)
    (args : List GoValue) : Query :=
  if q.RawSQL.Fragment ≠ "" then q
  else
    let c : joinClause :=
      { JoinType := joinType
        Table := fmt.Sprintf (q.tablePattern ++ " AS %v") [table, table]
        On := [{ Fragment := onSQL, Arguments := args }] }
    let globalClauses := q.globalClauses.map
      (fun g => { g with Fragment := strings.ReplaceAll g.Fragment AliasToken table })
    let c : joinClause := { c with On := c.On ++ globalClauses }
    { q with globalClauses := globalClauses, joinClauses := q.joinClauses ++ [c] }

/-- The method `Query.Join`. -/
def Query.Join (AliasToken : String) (q : Query) (table onSQL : String) (args : List GoValue) :
    Query :=
  q.join AliasToken "JOIN" table onSQL args

/-- The method `Query.LeftJoin`. -/
def Query.LeftJoin (AliasToken : String) (q : Query) (table onSQL : String)
    (args : List GoValue) : Query :=
  q.join AliasToken "LEFT JOIN" table onSQL args

/-- The method `Query.RightJoin`. -/
def Query.RightJoin (AliasToken : String) (q : Query) (table onSQL : String)
    (args : List GoValue) : Query :=
  q.join AliasToken "RIGHT JOIN" table onSQL args

/-- The method `Query.LeftOuterJoin`. -/
def Query.LeftOuterJoin (AliasToken : String) (q : Query) (table onSQL : String)
    (args : List GoValue) : Query :=
  q.join AliasToken "LEFT OUTER JOIN" table onSQL args

/-- The method `Query.RightOuterJoin`. -/
def Query.RightOuterJoin (AliasToken : String) (q : Query) (table onSQL : String)
    (args : List GoValue) : Query :=
  q.join AliasToken "RIGHT OUTER JOIN" table onSQL args

/-- The method `Query.InnerJoin`. -/
def Query.InnerJoin (AliasToken : String) (q : Query) (table onSQL : String)
    (args : List GoValue) : Query :=
  q.join AliasToken "INNER JOIN" table onSQL args

/-- The six exported join builders. -/
inductive JoinKind where
  | Join
  | LeftJoin
  | RightJoin
  | LeftOuterJoin
  | RightOuterJoin
  | InnerJoin
deriving DecidableEq, Repr

/-- The SQL keyword that each builder passes to `Query.join`. -/
def JoinKind.keyword : JoinKind → String
  | JoinKind.Join => "JOIN"
  | JoinKind.LeftJoin => "LEFT JOIN"
  | JoinKind.RightJoin => "RIGHT JOIN"
  | JoinKind.LeftOuterJoin => "LEFT OUTER JOIN"
  | JoinKind.RightOuterJoin => "RIGHT OUTER JOIN"
  | JoinKind.InnerJoin => "INNER JOIN"

/-- The join builder of that name. -/
def Query.joinBy (AliasToken : String) (q : Query) :
    JoinKind → String → String → List GoValue → Query
  | JoinKind.Join => q.Join AliasToken
  | JoinKind.LeftJoin => q.LeftJoin AliasToken
  | JoinKind.RightJoin => q.RightJoin AliasToken
  | JoinKind.LeftOuterJoin => q.LeftOuterJoin AliasToken
  | JoinKind.RightOuterJoin => q.RightOuterJoin AliasToken
  | JoinKind.InnerJoin => q.InnerJoin AliasToken

/-- The number of `?` placeholders in an SQL text. -/
def placeholders (s : String) : Nat :=
  s.data.count '?'

/-- One step of query construction: a call of one of the six join builders, or a call of
`QueryHistory`. -/
inductive QueryStep where
  | join (kind : JoinKind) (table onSQL : String) (args : List GoValue)
  | history (t : Nat)
deriving DecidableEq, Repr

/-- The query after one construction step. -/
def Query.step {σ κ : Type} (AliasToken : String) (h : historyDB σ κ) (q : Query) :
    QueryStep → Query
  | QueryStep.join kind table onSQL args => q.joinBy AliasToken kind table onSQL args
  | QueryStep.history t => h.QueryHistory q t

/-- The query after a run of construction steps made one after the other. -/
def Query.steps {σ κ : Type} (AliasToken : String) (h : historyDB σ κ) (q : Query) :
    List QueryStep → Query
  | [] => q
  | st :: rest => Query.steps AliasToken h (q.step AliasToken h st) rest

/-- The arguments of the global predicate that a construction step registers on the query:
`QueryHistory` at `t` registers one predicate with arguments `t, t`, a join registers none. -/
def QueryStep.registers : QueryStep → List (List GoValue)
  | QueryStep.join _ _ _ _ => []
  | QueryStep.history t => [[GoValue.time t, GoValue.time t]]

/-- The argument lists of the global predicates registered on a query: those it held at the
start, then one per `QueryHistory` call of the run, in call order. -/
def registeredArgs (q : Query) (run : List QueryStep) : List (List GoValue) :=
  q.globalClauses.map (fun g => g.Arguments) ++ run.flatMap QueryStep.registers

/-- What `Query.join` attaches to a join on `table` for the global clause `g`: the clause with
every occurrence of the alias token in its fragment replaced by `table`. -/
def clause.forAlias (AliasToken table : String) (g : clause) : clause :=
  { g with Fragment := strings.ReplaceAll g.Fragment AliasToken table }

/-! ## Connections, the history mode and the history scope -/

/-- An interface value of type `dialect` as a connection holds it: its method set, and the
`historyDB` behind it when its dynamic type is `*historyDB`, the one dialect type of the package
that has the method `QueryHistory`. -/
structure DialectValue (σ κ : Type) where
  methods : dialect σ κ
  asHistoryDB : Option (historyDB σ κ)

/-- The field of `Connection` that the history mode and the history scope use. -/
structure Connection (σ κ : Type) where
  Dialect : DialectValue σ κ

/-- The field of `ConnectionDetails` that the history mode uses: the options, a
`map[string]string` as an association list (a `nil` map is the empty list). -/
structure ConnectionDetails where
  Options : List (String × String)

/-- The map read `m[k]` on a `map[string]string`: the empty string when the key is absent. -/
def mapValue (m : List (String × String)) (k : String) : String :=
  (m.lookup k).getD ""

/-- The built-in `delete(m, k)`. -/
def mapDelete (m : List (String × String)) (k : String) : List (String × String) :=
  m.filter (fun kv => kv.1 != k)

/-- What a mode function leaves behind: the connection and the details (both passed by pointer)
and the returned error. -/
structure ModeResult (σ κ : Type) where
  conn : Connection σ κ
  deets : ConnectionDetails
  err : Option GoError

/-- The method set of a `*historyDB` as a `dialect` value: `Create`, `Update` and `Destroy` are
the overrides of `historyDB`, run on the executor `S` with the column package `C`; `Quote` and
`TranslateSQL` are forwarded to the embedded dialect. The wall clock is read off the state the
base operation leaves (`clock`), which is where the Go code calls `time.Now()`. -/
def historyDB.asDialect {σ κ : Type} (C : ColumnsPkg κ) (S : store σ) (clock : σ → Nat)
    (h : historyDB σ κ) : Pop.dialect σ κ where
  Quote := h.dialect.Quote
  TranslateSQL := h.dialect.TranslateSQL
  Create s m c := h.Create C S s m c (clock (h.dialect.Create s m c).store)
  Update s m c := h.Update C S s m c (clock (h.dialect.Update s m c).store)
  Destroy s m := h.Destroy S s m (clock (h.dialect.Destroy s m).store)

/-- The function that `init` registers as `modes["history"]`: the connection's dialect becomes
a `*historyDB` over the previous dialect value. The executor `S`, the column package `C` and
the clock are the surroundings in which the installed dialect's methods run. -/
def historyMode {σ κ : Type} (C : ColumnsPkg κ) (S : store σ) (clock : σ → Nat)
    (c : Connection σ κ) (deets : ConnectionDetails) : ModeResult σ κ :=
  let suffix := mapValue deets.Options "suffix"
  let suffix := if suffix = "" then "_history" else suffix
  let deets : ConnectionDetails := { deets with Options := mapDelete deets.Options "suffix" }
  let hdb : historyDB σ κ := { dialect := c.Dialect.methods, Suffix := suffix }
  { conn := { c with
        Dialect := { methods := hdb.asDialect C S clock, asHistoryDB := some hdb } }
    deets := deets
    err := none }

/-- The map `modes` after `init`: the two entries of its declaration and the entry
`"history"`. -/
def modes {σ κ : Type} (C : ColumnsPkg κ) (S : store σ) (clock : σ → Nat) (name : String) :
    Option (Connection σ κ → ConnectionDetails → ModeResult σ κ) :=
  if name = "" then some (fun c deets => { conn := c, deets := deets, err := none })
  else if name = "default" then some (fun c deets => { conn := c, deets := deets, err := none })
  else if name = "history" then some (historyMode C S clock)
  else none

/-- A `*Query` with its `Connection` field; `fields` are the clause fields of record `Query`. -/
structure QueryOn (σ κ : Type) where
  Connection : Connection σ κ
  fields : Query

/-- The scope returned by `HistoryScope(t)`, applied to a query. The type assertion
`q.Connection.Dialect.(queryHistoryer)` succeeds exactly when the dialect value is a
`*historyDB`; `Except.error` carries the message of the `panic`. -/
def HistoryScope {σ κ : Type} (t : Nat) (q : QueryOn σ κ) : Except String (QueryOn σ κ) :=
  match q.Connection.Dialect.asHistoryDB with
  | none => Except.error "may only query history for history dialect"
  | some h => Except.ok { q with fields := h.QueryHistory q.fields t }

/-! ## The shadow table as a list of rows -/

/-- One row of a shadow table: the entity id, the copied column values, and the two temporal
columns (`deleted_at = none` is SQL `NULL`). -/
structure HistoryRow where
  id : GoValue
  values : GoStruct
  created_at : Nat
  deleted_at : Option Nat
deriving DecidableEq, Repr

/-- The effect on one row of the statement of `deleteHistory` with arguments `t, id`:
`SET deleted_at = t WHERE id = id AND deleted_at IS NULL`. -/
def HistoryRow.close (id : GoValue) (t : Nat) (r : HistoryRow) : HistoryRow :=
  if r.id = id ∧ r.deleted_at = none then { r with deleted_at := some t } else r

/-- The part of a row that no history statement ever rewrites. -/
def HistoryRow.key (r : HistoryRow) : GoValue × GoStruct × Nat :=
  (r.id, r.values, r.created_at)

/-- The rows of entity `id`. -/
def rowsOf (id : GoValue) (rows : List HistoryRow) : List HistoryRow :=
  rows.filter (fun r => r.id = id)

/-- The rows of entity `id` whose `deleted_at` is `NULL`. -/
def openRowsOf (id : GoValue) (rows : List HistoryRow) : List HistoryRow :=
  rows.filter (fun r => r.id = id ∧ r.deleted_at = none)

/-- The value on a row of the SQL condition `created_at <= a AND (deleted_at IS NULL OR
deleted_at > b)`. -/
def HistoryRow.valid (a b : Nat) (r : HistoryRow) : Bool :=
  decide (r.created_at ≤ a) &&
    (match r.deleted_at with
     | none => true
     | some d => decide (d > b))

/-- The value of a clause on a row, for the one clause text that the history dialect produces:
the two placeholders of `historyFragment` are bound, left to right, to the two arguments. -/
def clause.holds (c : clause) (r : HistoryRow) : Option Bool :=
  if c.Fragment = historyFragment then
    match c.Arguments with
    | [GoValue.time a, GoValue.time b] => some (r.valid a b)
    | _ => none
  else none

/-- The rows of entity `id` that satisfy clause `c`. -/
def matching (c : clause) (id : GoValue) (rows : List HistoryRow) : List HistoryRow :=
  rows.filter (fun r => r.id = id ∧ c.holds r = some true)

/-- The validity interval `[created_at, deleted_at)` of a row contains the instant `t`. -/
def HistoryRow.covers (r : HistoryRow) (t : Nat) : Prop :=
  r.created_at ≤ t ∧ ∀ d, r.deleted_at = some d → t < d

/-- The executor `S` holds a shadow table, read off its state by `rows`, on which the two history
statements for the entity `id` of table `tbl` succeed and act as SQL prescribes: the statement of
`insertHistory` appends one row for `id` with `created_at = t` and `deleted_at = NULL`, the
statement of `deleteHistory` stamps `deleted_at = t` on every row of `id` whose `deleted_at`
is `NULL`. -/
structure ShadowTable {σ κ : Type} (C : ColumnsPkg κ) (S : store σ) (h : historyDB σ κ)
    (tbl : String) (id : GoValue) (rows : σ → List HistoryRow) : Prop where
  insert : ∀ (m : Model) (s : σ) (t : Nat), m.TableName = tbl → m.ID = id →
    (h.insertHistory C S s m t).2 = none ∧
    ∃ v, rows (h.insertHistory C S s m t).1
      = rows s ++ [{ id := id, values := v, created_at := t, deleted_at := none }]
  close : ∀ (m : Model) (s : σ) (t : Nat), m.TableName = tbl → m.ID = id →
    (h.deleteHistory S s m t).2 = none ∧
    rows (h.deleteHistory S s m t).1 = (rows s).map (HistoryRow.close id t)

/-- The base dialect's `Update` and `Destroy` succeed on the entity `id` of table `tbl`, leave the
shadow table alone and keep the model pointing at that entity. -/
structure BaseSucceeds {σ κ : Type} (d : dialect σ κ)
    (tbl : String) (id : GoValue) (rows : σ → List HistoryRow) : Prop where
  update : ∀ (s : σ) (m : Model) (c : κ), m.TableName = tbl → m.ID = id →
    (d.Update s m c).err = none ∧ rows (d.Update s m c).store = rows s ∧
    (d.Update s m c).model.TableName = tbl ∧ (d.Update s m c).model.ID = id
  destroy : ∀ (s : σ) (m : Model), m.TableName = tbl → m.ID = id →
    (d.Destroy s m).err = none ∧ rows (d.Destroy s m).store = rows s ∧
    (d.Destroy s m).model.TableName = tbl ∧ (d.Destroy s m).model.ID = id

/-- The base dialect's `Create` of model `m` with columns `c` succeeds, leaves the shadow table
alone and leaves the model with table `tbl` and the (possibly just assigned) id `id`. -/
def BaseCreates {σ κ : Type} (d : dialect σ κ) (m : Model) (c : κ)
    (tbl : String) (id : GoValue) (rows : σ → List HistoryRow) : Prop :=
  ∀ s : σ, (d.Create s m c).err = none ∧ rows (d.Create s m c).store = rows s ∧
    (d.Create s m c).model.TableName = tbl ∧ (d.Create s m c).model.ID = id

/-- One `Update` call: the model, the columns and the instant read from the clock. -/
structure UpdateCall (κ : Type) where
  model : Model
  cols : κ
  now : Nat

/-- The executor state after a run of `Update` calls made one after the other. -/
def historyDB.Updates {σ κ : Type} (C : ColumnsPkg κ) (S : store σ) (h : historyDB σ κ)
    (s : σ) : List (UpdateCall κ) → σ
  | [] => s
  | u :: us => historyDB.Updates C S h (h.Update C S s u.model u.cols u.now).store us

/-- The executor state after `Create` followed by a run of `Update` calls. -/
def historyDB.CreateThenUpdates {σ κ : Type} (C : ColumnsPkg κ) (S : store σ)
    (h : historyDB σ κ) (s : σ) (m : Model) (c : κ) (now : Nat) (us : List (UpdateCall κ)) : σ :=
  h.Updates C S (h.Create C S s m c now).store us

/-- The validity intervals of an entity created at `a` and then updated at the instants `ts`:
each update closes the open interval and opens the next one at the same instant. -/
def spans (a : Nat) : List Nat → List (Nat × Option Nat)
  | [] => [(a, none)]
  | b :: ts => (a, some b) :: spans b ts

/-- The validity intervals of an entity created at `a`, updated at the instants `ts` and destroyed
at `d`. -/
def closedSpans (a : Nat) (d : Nat) : List Nat → List (Nat × Option Nat)
  | [] => [(a, some d)]
  | b :: ts => (a, some b) :: closedSpans b d ts

/-- The two temporal columns of a row. -/
def HistoryRow.span (r : HistoryRow) : Nat × Option Nat :=
  (r.created_at, r.deleted_at)

/-- The effect of the close statement on the two temporal columns of a row of the entity. -/
def closeSpan (t : Nat) (p : Nat × Option Nat) : Nat × Option Nat :=
  match p.2 with
  | none => (p.1, some t)
  | some _ => p

/-- The interval `[p.1, p.2)` contains `t`, as the validity predicate computes it. -/
def spanValid (t : Nat) (p : Nat × Option Nat) : Bool :=
  decide (p.1 ≤ t) &&
    (match p.2 with
     | none => true
     | some d => decide (d > t))

/-- None of the pieces that `insertHistory` and `deleteHistory` splice into their statement
templates for model `m` (the quoted table, id and temporal column names, the two column lists)
contains a `?`. -/
structure PlainPieces {σ κ : Type} (C : ColumnsPkg κ) (h : historyDB σ κ) (m : Model) :
    Prop where
  shadow : placeholders (h.dialect.Quote (m.TableName ++ h.Suffix)) = 0
  table : placeholders (h.dialect.Quote m.TableName) = 0
  idField : placeholders (h.dialect.Quote m.IDField) = 0
  createdAt : placeholders (h.dialect.Quote "created_at") = 0
  deletedAt : placeholders (h.dialect.Quote "deleted_at") = 0
  writeable : placeholders
    (C.QuotedString
      (C.Add (C.Writeable (C.Add (C.ForStruct m.Value m.TableName) m.IDField)) m.IDField)
      h.dialect.Quote) = 0
  readable : placeholders
    (C.SelectString (C.Readable (C.Add (C.ForStruct m.Value m.TableName) m.IDField))) = 0

/-! ## Concrete collaborators used to instantiate the theorems -/

/-- A column set as the list of its column names. -/
def demoColumns : ColumnsPkg (List String) where
  ForStruct v _ := v.map (fun f => f.1)
  Add cs name := if cs.contains name then cs else cs ++ [name]
  Readable cs := cs
  Writeable cs := cs
  QuotedString cs q := ", ".intercalate (cs.map q)
  SelectString cs := ", ".intercalate cs

/-- A base dialect that quotes with double quotes, leaves SQL as it is, and whose three
operations succeed without touching the executor or the model. -/
def demoDialect (σ : Type) : dialect σ (List String) where
  Quote x := "\"" ++ x ++ "\""
  TranslateSQL x := x
  Create s m _ := { store := s, model := m, err := none }
  Update s m _ := { store := s, model := m, err := none }
  Destroy s m := { store := s, model := m, err := none }

/-- A base dialect whose three operations fail. -/
def brokenDialect (σ : Type) : dialect σ (List String) where
  Quote x := "\"" ++ x ++ "\""
  TranslateSQL x := x
  Create s m _ := { store := s, model := m, err := some (GoError.new "base create failed") }
  Update s m _ := { store := s, model := m, err := some (GoError.new "base update failed") }
  Destroy s m := { store := s, model := m, err := some (GoError.new "base destroy failed") }

/-- An executor on which every statement succeeds. -/
def okStore : store Unit where
  Exec _ _ s := (s, none)

/-- An executor on which every statement fails. -/
def failStore : store Unit where
  Exec _ _ s := (s, some (GoError.new "exec failed"))

/-- An executor that rejects every statement whose text starts with `INSERT` and answers every
other statement without error. -/
def insertFailStore : store Unit where
  Exec sql _ s :=
    if sql.data.take 6 = ['I', 'N', 'S', 'E', 'R', 'T'] then
      (s, some (GoError.new "insert rejected"))
    else (s, none)

/-- The entity `users(id = 1, name = "a")`. -/
def demoModel : Model :=
  { Value := [("id", GoValue.int 1), ("name", GoValue.str "a")]
    TableName := "users"
    IDField := "id"
    ID := GoValue.int 1 }

/-- The history dialect with suffix `_history` over `demoDialect`. -/
def demoHistory (σ : Type) : historyDB σ (List String) :=
  { dialect := demoDialect σ, Suffix := "_history" }

/-- The history dialect with suffix `_history` over `brokenDialect`. -/
def brokenHistory (σ : Type) : historyDB σ (List String) :=
  { dialect := brokenDialect σ, Suffix := "_history" }

/-- An executor whose state is one shadow table. A statement with arguments `t, id` whose text
starts with `INSERT` appends the row `(id, no values, t, NULL)`; any other statement with
arguments `t, id` is run as the close statement; other argument lists are rejected. -/
def tableStore : store (List HistoryRow) where
  Exec sql args s :=
    match args with
    | [GoValue.time t, id] =>
      if sql.data.take 6 = ['I', 'N', 'S', 'E', 'R', 'T'] then
        (s ++ [{ id := id, values := [], created_at := t, deleted_at := none }], none)
      else
        (s.map (HistoryRow.close id t), none)
    | _ => (s, some (GoError.new "unexpected arguments"))

/-- Two `Update` calls on the entity of `demoModel`, at the instants 20 and 30. -/
def demoUpdates : List (UpdateCall (List String)) :=
  [{ model := demoModel, cols := [], now := 20 },
   { model := { demoModel with Value := [("id", GoValue.int 1), ("name", GoValue.str "b")] },
     cols := [], now := 30 }]

/-- A query with no clause yet on the default table pattern. -/
def emptyQuery : Query :=
  { RawSQL := { Fragment := "", Arguments := [] }
    whereClauses := []
    globalClauses := []
    joinClauses := []
    tablePattern := "%v" }

/-- A query on the default table pattern holding one global clause that mentions the alias
token `%TABLE_NAME%`. -/
def aliasQuery : Query :=
  { emptyQuery with
    globalClauses := [{ Fragment := "%TABLE_NAME%.deleted_at IS NULL", Arguments := [] }] }

/-- A query built from raw SQL. -/
def rawQuery : Query :=
  { aliasQuery with RawSQL := { Fragment := "SELECT 1", Arguments := [] } }

/-- A connection on the plain `demoDialect`. -/
def plainConnection : Connection Unit (List String) :=
  { Dialect := { methods := demoDialect Unit, asHistoryDB := none } }

/-- A connection whose dialect is the history dialect `demoHistory`: the history mode applied
to `plainConnection` with no option. -/
def historyConnection : Connection Unit (List String) :=
  (historyMode demoColumns okStore (fun _ => 0) plainConnection { Options := [] }).conn

/-- A connection on the plain `demoDialect` whose executor state keeps the log of the recording
executor. -/
def loggedConnection : Connection (Unit × List ExecCall) (List String) :=
  { Dialect := { methods := demoDialect (Unit × List ExecCall), asHistoryDB := none } }

/-- The join clause that `Join("b", "b.id IN (?)", 1, 2, 3)` leaves on a query after
`QueryHistory` at instant 2 (default alias token, suffix `_history`): one placeholder and three
arguments in its own predicate, then the validity predicate. -/
def inListJoin : joinClause :=
  { JoinType := "JOIN"
    Table := "b_history AS b"
    On := [{ Fragment := "b.id IN (?)",
             Arguments := [GoValue.int 1, GoValue.int 2, GoValue.int 3] },
           { Fragment := historyFragment, Arguments := [GoValue.time 2, GoValue.time 2] }] }

/-! # Theorems -/

/-! ## Errors and statements of Create, Update, Destroy -/

theorem errorsWrap_eq_none (e : Option GoError) (label : String) :
    errorsWrap e label = none ↔ e = none := by
  cases e <;> simp [errorsWrap]

theorem recording_exec_log {σ : Type} (S : store σ) (sql : String) (args : List GoValue)
    (s : σ × List ExecCall) :
    ((recording S).Exec sql args s).1.2 = s.2 ++ [{ sql := sql, args := args }] := rfl

theorem insertHistory_log {σ κ : Type} (C : ColumnsPkg κ) (S : store σ)
    (h : historyDB (σ × List ExecCall) κ) (s : σ × List ExecCall) (m : Model) (t : Nat) :
    (h.insertHistory C (recording S) s m t).1.2 = s.2 ++ [insertCall C h m t] := rfl

theorem deleteHistory_log {σ κ : Type} (S : store σ)
    (h : historyDB (σ × List ExecCall) κ) (s : σ × List ExecCall) (m : Model) (t : Nat) :
    (h.deleteHistory (recording S) s m t).1.2 = s.2 ++ [closeCall h m t] := rfl

/-- C3 (as amended): on the recording executor, when the base operation succeeds, the statements
added to the log are: for Create the one insert; for Update the one close, followed by the one
insert when that close succeeded and by nothing when it failed; for Destroy the one close. Every
one of them has the arguments `now, id`, with the single instant `now` of the call first. -/
theorem history_statements_issued {σ κ : Type} (C : ColumnsPkg κ) (S : store σ)
    (h : historyDB (σ × List ExecCall) κ) (s : σ × List ExecCall) (m : Model) (c : κ)
    (now : Nat) :
    ((h.dialect.Create s m c).err = none →
      (h.Create C (recording S) s m c now).store.2
        = (h.dialect.Create s m c).store.2
          ++ [insertCall C h (h.dialect.Create s m c).model now]) ∧
    ((h.dialect.Update s m c).err = none →
      (h.Update C (recording S) s m c now).store.2
        = (h.dialect.Update s m c).store.2
          ++ closeCall h (h.dialect.Update s m c).model now ::
            (if (h.deleteHistory (recording S) (h.dialect.Update s m c).store
                  (h.dialect.Update s m c).model now).2 = none
             then [insertCall C h (h.dialect.Update s m c).model now] else [])) ∧
    ((h.dialect.Destroy s m).err = none →
      (h.Destroy (recording S) s m now).store.2
        = (h.dialect.Destroy s m).store.2 ++ [closeCall h (h.dialect.Destroy s m).model now]) ∧
    (∀ m1 : Model, (insertCall C h m1 now).args = [GoValue.time now, m1.ID] ∧
      (closeCall h m1 now).args = [GoValue.time now, m1.ID]) := by
  refine ⟨?_, ?_, ?_, fun m1 => ⟨rfl, rfl⟩⟩
  · intro hb
    simp only [historyDB.Create, hb]
    exact insertHistory_log C S h _ _ now
  · intro hb
    simp only [historyDB.Update, hb]
    cases hd : (h.deleteHistory (recording S) (h.dialect.Update s m c).store
        (h.dialect.Update s m c).model now).2 with
    | none =>
      simp only [errorsWrap, if_true]
      rw [insertHistory_log, deleteHistory_log]
      simp
    | some e =>
      simp only [errorsWrap]
      rw [deleteHistory_log]
      simp
  · intro hb
    simp only [historyDB.Destroy, hb]
    exact deleteHistory_log S h _ _ now

theorem history_statements_issued_witness :
    ((demoHistory (Unit × List ExecCall)).dialect.Update ((), []) demoModel []).err = none ∧
    (historyDB.Update demoColumns (recording okStore) (demoHistory _) ((), []) demoModel [] 7).store.2
      = [closeCall (demoHistory (Unit × List ExecCall)) demoModel 7,
         insertCall demoColumns (demoHistory (Unit × List ExecCall)) demoModel 7] :=
  ⟨rfl, (history_statements_issued demoColumns okStore (demoHistory _) ((), []) demoModel [] 7).2.1
    rfl⟩

/-- C3 (as stated) fails: on an executor whose close statement fails, `Update` with a succeeding
base operation issues the close statement only, not a close followed by an insert. -/
theorem update_failed_close_issues_one_statement :
    ((demoHistory (Unit × List ExecCall)).dialect.Update ((), []) demoModel []).err = none ∧
    (historyDB.Update demoColumns (recording failStore) (demoHistory _) ((), []) demoModel []
        7).store.2
      = [closeCall (demoHistory (Unit × List ExecCall)) demoModel 7] ∧
    (historyDB.Update demoColumns (recording failStore) (demoHistory _) ((), []) demoModel []
        7).store.2
      ≠ ((demoHistory (Unit × List ExecCall)).dialect.Update ((), []) demoModel []).store.2
        ++ [closeCall (demoHistory (Unit × List ExecCall)) demoModel 7,
            insertCall demoColumns (demoHistory (Unit × List ExecCall)) demoModel 7] := by
  refine ⟨rfl, rfl, ?_⟩
  intro hEq
  have hlen := congrArg List.length hEq
  exact absurd hlen (by decide)

/-- C4: on the recording executor, when the base operation of `Create`, `Update` or `Destroy`
returns an error `e`, the history operation returns exactly what the base operation returned:
the same error value `e`, not wrapped, and the base operation's executor state with its log
untouched, so neither history statement was issued. -/
theorem base_error_returned_unchanged {σ κ : Type} (C : ColumnsPkg κ) (S : store σ)
    (h : historyDB (σ × List ExecCall) κ) (s : σ × List ExecCall) (m : Model) (c : κ)
    (now : Nat) (e : GoError) :
    ((h.dialect.Create s m c).err = some e →
      (h.Create C (recording S) s m c now).err = some e ∧
      (h.Create C (recording S) s m c now).store.2 = (h.dialect.Create s m c).store.2 ∧
      h.Create C (recording S) s m c now = h.dialect.Create s m c) ∧
    ((h.dialect.Update s m c).err = some e →
      (h.Update C (recording S) s m c now).err = some e ∧
      (h.Update C (recording S) s m c now).store.2 = (h.dialect.Update s m c).store.2 ∧
      h.Update C (recording S) s m c now = h.dialect.Update s m c) ∧
    ((h.dialect.Destroy s m).err = some e →
      (h.Destroy (recording S) s m now).err = some e ∧
      (h.Destroy (recording S) s m now).store.2 = (h.dialect.Destroy s m).store.2 ∧
      h.Destroy (recording S) s m now = h.dialect.Destroy s m) := by
  refine ⟨?_, ?_, ?_⟩
  · intro hb
    have hEq : h.Create C (recording S) s m c now = h.dialect.Create s m c := by
      simp only [historyDB.Create, hb]
    exact ⟨by rw [hEq, hb], by rw [hEq], hEq⟩
  · intro hb
    have hEq : h.Update C (recording S) s m c now = h.dialect.Update s m c := by
      simp only [historyDB.Update, hb]
    exact ⟨by rw [hEq, hb], by rw [hEq], hEq⟩
  · intro hb
    have hEq : h.Destroy (recording S) s m now = h.dialect.Destroy s m := by
      simp only [historyDB.Destroy, hb]
    exact ⟨by rw [hEq, hb], by rw [hEq], hEq⟩

theorem base_error_returned_unchanged_witness :
    ((brokenHistory (Unit × List ExecCall)).dialect.Update ((), []) demoModel []).err
      = some (GoError.new "base update failed") ∧
    (historyDB.Update demoColumns (recording okStore) (brokenHistory _) ((), []) demoModel []
        7).err = some (GoError.new "base update failed") ∧
    (historyDB.Update demoColumns (recording okStore) (brokenHistory _) ((), []) demoModel []
        7).store.2 = [] :=
  ⟨rfl,
   ((base_error_returned_unchanged demoColumns okStore (brokenHistory _) ((), []) demoModel [] 7
      (GoError.new "base update failed")).2.1 rfl).1,
   ((base_error_returned_unchanged demoColumns okStore (brokenHistory _) ((), []) demoModel [] 7
      (GoError.new "base update failed")).2.1 rfl).2.1⟩

theorem insertHistory_recording_err {σ κ : Type} (C : ColumnsPkg κ) (S : store σ)
    (h : historyDB (σ × List ExecCall) κ) (s : σ × List ExecCall) (m : Model) (t : Nat) :
    (h.insertHistory C (recording S) s m t).2
      = (S.Exec (h.insertHistorySQL C m) [GoValue.time t, m.ID] s.1).2 := rfl

theorem deleteHistory_recording_err {σ κ : Type} (S : store σ)
    (h : historyDB (σ × List ExecCall) κ) (s : σ × List ExecCall) (m : Model) (t : Nat) :
    (h.deleteHistory (recording S) s m t).2
      = (S.Exec (h.deleteHistorySQL m) [GoValue.time t, m.ID] s.1).2 := rfl

theorem deleteHistory_recording_state {σ κ : Type} (S : store σ)
    (h : historyDB (σ × List ExecCall) κ) (s : σ × List ExecCall) (m : Model) (t : Nat) :
    (h.deleteHistory (recording S) s m t).1.1
      = (S.Exec (h.deleteHistorySQL m) [GoValue.time t, m.ID] s.1).1 := rfl

/-- C5: on an executor `S` observed through the recording executor, when the base operation
succeeds: `Create` returns no error exactly when `S` answers its insert statement without
error, and an error `e` answered to the insert comes back as `e` wrapped with
"historical insert"; `Destroy` returns no error exactly when `S` answers its close statement
without error, and an error answered to the close comes back wrapped with "historical delete";
`Update` returns no error exactly when `S` answers both its close and then its insert without
error; when `S` answers the close with `e`, `Update` returns `e` wrapped with
"historical delete" and the log gains the close statement only (the insert is never issued);
when the close is answered without error and the insert with `e`, `Update` returns `e` wrapped
with "historical insert". -/
theorem history_errors_wrapped {σ κ : Type} (C : ColumnsPkg κ) (S : store σ)
    (h : historyDB (σ × List ExecCall) κ) (s : σ × List ExecCall) (m : Model) (c : κ)
    (now : Nat) :
    ((h.dialect.Create s m c).err = none →
      ((h.Create C (recording S) s m c now).err = none ↔
        (S.Exec (h.insertHistorySQL C (h.dialect.Create s m c).model)
          [GoValue.time now, (h.dialect.Create s m c).model.ID]
          (h.dialect.Create s m c).store.1).2 = none) ∧
      ∀ e, (S.Exec (h.insertHistorySQL C (h.dialect.Create s m c).model)
          [GoValue.time now, (h.dialect.Create s m c).model.ID]
          (h.dialect.Create s m c).store.1).2 = some e →
        (h.Create C (recording S) s m c now).err
          = some (GoError.wrapped e "historical insert")) ∧
    ((h.dialect.Destroy s m).err = none →
      ((h.Destroy (recording S) s m now).err = none ↔
        (S.Exec (h.deleteHistorySQL (h.dialect.Destroy s m).model)
          [GoValue.time now, (h.dialect.Destroy s m).model.ID]
          (h.dialect.Destroy s m).store.1).2 = none) ∧
      ∀ e, (S.Exec (h.deleteHistorySQL (h.dialect.Destroy s m).model)
          [GoValue.time now, (h.dialect.Destroy s m).model.ID]
          (h.dialect.Destroy s m).store.1).2 = some e →
        (h.Destroy (recording S) s m now).err
          = some (GoError.wrapped e "historical delete")) ∧
    ((h.dialect.Update s m c).err = none →
      ((h.Update C (recording S) s m c now).err = none ↔
        (S.Exec (h.deleteHistorySQL (h.dialect.Update s m c).model)
          [GoValue.time now, (h.dialect.Update s m c).model.ID]
          (h.dialect.Update s m c).store.1).2 = none ∧
        (S.Exec (h.insertHistorySQL C (h.dialect.Update s m c).model)
          [GoValue.time now, (h.dialect.Update s m c).model.ID]
          (S.Exec (h.deleteHistorySQL (h.dialect.Update s m c).model)
            [GoValue.time now, (h.dialect.Update s m c).model.ID]
            (h.dialect.Update s m c).store.1).1).2 = none) ∧
      (∀ e, (S.Exec (h.deleteHistorySQL (h.dialect.Update s m c).model)
          [GoValue.time now, (h.dialect.Update s m c).model.ID]
          (h.dialect.Update s m c).store.1).2 = some e →
        (h.Update C (recording S) s m c now).err
          = some (GoError.wrapped e "historical delete") ∧
        (h.Update C (recording S) s m c now).store.2
          = (h.dialect.Update s m c).store.2
            ++ [closeCall h (h.dialect.Update s m c).model now]) ∧
      ((S.Exec (h.deleteHistorySQL (h.dialect.Update s m c).model)
          [GoValue.time now, (h.dialect.Update s m c).model.ID]
          (h.dialect.Update s m c).store.1).2 = none →
        ∀ e, (S.Exec (h.insertHistorySQL C (h.dialect.Update s m c).model)
            [GoValue.time now, (h.dialect.Update s m c).model.ID]
            (S.Exec (h.deleteHistorySQL (h.dialect.Update s m c).model)
              [GoValue.time now, (h.dialect.Update s m c).model.ID]
              (h.dialect.Update s m c).store.1).1).2 = some e →
          (h.Update C (recording S) s m c now).err
            = some (GoError.wrapped e "historical insert"))) := by
  refine ⟨?_, ?_, ?_⟩
  · intro hb
    simp only [historyDB.Create, hb, insertHistory_recording_err]
    refine ⟨errorsWrap_eq_none _ _, ?_⟩
    intro e he
    simp only [he, errorsWrap]
  · intro hb
    simp only [historyDB.Destroy, hb, deleteHistory_recording_err]
    refine ⟨errorsWrap_eq_none _ _, ?_⟩
    intro e he
    simp only [he, errorsWrap]
  · intro hb
    have hlog := deleteHistory_log S h (h.dialect.Update s m c).store
      (h.dialect.Update s m c).model now
    simp only [historyDB.Update, hb]
    cases hd : (S.Exec (h.deleteHistorySQL (h.dialect.Update s m c).model)
        [GoValue.time now, (h.dialect.Update s m c).model.ID]
        (h.dialect.Update s m c).store.1).2 with
    | none =>
      have hd1 : (h.deleteHistory (recording S) (h.dialect.Update s m c).store
          (h.dialect.Update s m c).model now).2 = none := hd
      simp only [hd1, errorsWrap, insertHistory_recording_err, deleteHistory_recording_state,
        true_and]
      refine ⟨errorsWrap_eq_none _ _, by simp, ?_⟩
      intro _ e he
      simp only [he, errorsWrap]
    | some e0 =>
      have hd1 : (h.deleteHistory (recording S) (h.dialect.Update s m c).store
          (h.dialect.Update s m c).model now).2 = some e0 := hd
      simp only [hd1, errorsWrap]
      refine ⟨by simp, ?_, by simp⟩
      intro e he
      cases he
      exact ⟨rfl, hlog⟩

theorem history_errors_wrapped_witness :
    ((demoHistory (Unit × List ExecCall)).dialect.Create ((), []) demoModel []).err = none ∧
    (historyDB.Create demoColumns (recording insertFailStore) (demoHistory _) ((), [])
        demoModel [] 7).err
      = some (GoError.wrapped (GoError.new "insert rejected") "historical insert") ∧
    (historyDB.Update demoColumns (recording insertFailStore) (demoHistory _) ((), [])
        demoModel [] 7).err
      = some (GoError.wrapped (GoError.new "insert rejected") "historical insert") ∧
    (historyDB.Update demoColumns (recording failStore) (demoHistory _) ((), []) demoModel []
        7).err = some (GoError.wrapped (GoError.new "exec failed") "historical delete") ∧
    ((historyDB.Update demoColumns (recording okStore) (demoHistory _) ((), []) demoModel []
        7).err = none) :=
  ⟨rfl,
   ((history_errors_wrapped demoColumns insertFailStore (demoHistory _) ((), []) demoModel []
      7).1 rfl).2 (GoError.new "insert rejected") rfl,
   ((history_errors_wrapped demoColumns insertFailStore (demoHistory _) ((), []) demoModel []
      7).2.2 rfl).2.2 rfl (GoError.new "insert rejected") rfl,
   (((history_errors_wrapped demoColumns failStore (demoHistory _) ((), []) demoModel [] 7).2.2
      rfl).2.1 (GoError.new "exec failed") rfl).1,
   ((history_errors_wrapped demoColumns okStore (demoHistory _) ((), []) demoModel [] 7).2.2
      rfl).1.mpr ⟨rfl, rfl⟩⟩

/-! ## The schema translator -/

theorem HasSuffix_iff (s suffix : String) :
    HasSuffix s suffix = true ↔ ∃ p : String, s = p ++ suffix := by
  unfold HasSuffix
  rw [List.isSuffixOf_iff_suffix]
  constructor
  · rintro ⟨l, hl⟩
    refine ⟨⟨l⟩, ?_⟩
    apply String.ext
    simp [String.data_append, hl]
  · rintro ⟨p, rfl⟩
    exact ⟨p.data, by simp [String.data_append]⟩

theorem apply_of_suffix {τ : Type} (h : historyTranslator τ) (f : Table → τ → Emitted × τ)
    (t : Table) (st : τ) (hs : HasSuffix t.Name h.Suffix = true) :
    h.apply f t st = (("", some errAlreadyHistorical), st) := by
  simp [historyTranslator.apply, hs]

theorem guarded_eq_apply {τ : Type} (h : historyTranslator τ) (op : GuardedOp) :
    h.guarded op = h.apply (h.Translator.guarded op) := by
  cases op <;> rfl

/-- C6: for each of DropTable, AddColumn, ChangeColumn, DropColumn and RenameColumn and every
table whose name ends with the suffix, the operation returns the empty SQL string with the error
"operation already applies to historical tables", and the wrapped translator's state is the
one it had before the call, whatever the wrapped translator is: it is never invoked. -/
theorem guarded_refuses_suffixed {τ : Type} (h : historyTranslator τ) (op : GuardedOp)
    (t : Table) (st : τ) (hs : HasSuffix t.Name h.Suffix = true) :
    h.guarded op t st
      = (("", some (GoError.new "operation already applies to historical tables")), st) := by
  rw [guarded_eq_apply]
  exact apply_of_suffix h _ t st hs

theorem guarded_refuses_suffixed_witness :
    HasSuffix "users_history" listingHistory.Suffix = true ∧
    listingHistory.DropColumn { usersTable with Name := "users_history" } []
      = (("", some (GoError.new "operation already applies to historical tables")), []) :=
  ⟨by decide,
   guarded_refuses_suffixed listingHistory GuardedOp.DropColumn
     { usersTable with Name := "users_history" } [] (by decide)⟩

theorem apply_of_not_suffix {τ : Type} (h : historyTranslator τ) (f : Table → τ → Emitted × τ)
    (t : Table) (st : τ) (hs : HasSuffix t.Name h.Suffix = false)
    (h1 : (f t st).1.2 = none) :
    h.apply f t st
      = (((f t st).1.1 ++ "\n"
            ++ (f { t with
                    Name := t.Name ++ h.Suffix
                    Indexes := t.Indexes.map (fun i => { i with Unique := false }) }
                  (f t st).2).1.1,
          (f { t with
               Name := t.Name ++ h.Suffix
               Indexes := t.Indexes.map (fun i => { i with Unique := false }) }
             (f t st).2).1.2),
         (f { t with
              Name := t.Name ++ h.Suffix
              Indexes := t.Indexes.map (fun i => { i with Unique := false }) }
            (f t st).2).2) := by
  simp [historyTranslator.apply, hs, h1]

/-- C7: for each of DropTable, AddColumn, ChangeColumn, DropColumn and RenameColumn with base
operation `f`, and every table `t` whose name does not end with the suffix: there is a
description `t'` that has the name of `t` with the suffix appended, the columns, foreign
keys, primary keys and options of `t`, and the indexes of `t` in the same order with the same
names, columns and options but all with `Unique = false`, such that, when `f` succeeds on `t`
and then on `t'`, the operation returns `f(t) + "\n" + f(t')` with no error; the first statement
is `f` applied to `t` itself. -/
theorem guarded_mirrors_on_shadow {τ : Type} (h : historyTranslator τ) (op : GuardedOp)
    (t : Table) (st : τ) (hs : HasSuffix t.Name h.Suffix = false) :
    ∃ t1 : Table,
      t1.Name = t.Name ++ h.Suffix ∧ t1.Columns = t.Columns ∧
      t1.ForeignKeys = t.ForeignKeys ∧ t1.primaryKeys = t.primaryKeys ∧
      t1.Options = t.Options ∧
      t1.Indexes.map (fun i => (i.Name, i.Columns, i.Options))
        = t.Indexes.map (fun i => (i.Name, i.Columns, i.Options)) ∧
      (∀ i ∈ t1.Indexes, i.Unique = false) ∧
      ((h.Translator.guarded op t st).1.2 = none →
        (h.Translator.guarded op t1 (h.Translator.guarded op t st).2).1.2 = none →
        h.guarded op t st
          = (((h.Translator.guarded op t st).1.1 ++ "\n"
                ++ (h.Translator.guarded op t1 (h.Translator.guarded op t st).2).1.1, none),
             (h.Translator.guarded op t1 (h.Translator.guarded op t st).2).2)) := by
  refine ⟨{ t with
            Name := t.Name ++ h.Suffix
            Indexes := t.Indexes.map (fun i => { i with Unique := false }) },
    rfl, rfl, rfl, rfl, rfl, ?_, ?_, ?_⟩
  · simp [List.map_map, Function.comp_def]
  · intro i hi
    simp only [List.mem_map] at hi
    obtain ⟨j, _, rfl⟩ := hi
    rfl
  · intro h1 h2
    rw [guarded_eq_apply, apply_of_not_suffix h _ t st hs h1, h2]

theorem guarded_mirrors_on_shadow_witness :
    HasSuffix usersTable.Name listingHistory.Suffix = false ∧
    ∃ t1 : Table, t1.Name = "users" ++ "_history" ∧ (∀ i ∈ t1.Indexes, i.Unique = false) ∧
      listingHistory.DropColumn usersTable []
        = (("DROP COLUMN users;" ++ "\n" ++ ("DROP COLUMN " ++ t1.Name ++ ";"), none),
           [usersTable, t1]) := by
  obtain ⟨t1, hn, _, _, _, _, _, hu, hres⟩ :=
    guarded_mirrors_on_shadow listingHistory GuardedOp.DropColumn usersTable [] (by decide)
  exact ⟨by decide, t1, hn, hu, hres rfl rfl⟩

theorem Options_set_lookup_self (o : Options) (k : String) (v : GoValue) :
    (Options.set o k v).lookup k = some v := by
  simp [Options.set]

theorem Options_set_lookup_other (o : Options) (k : String) (v : GoValue) (k1 : String)
    (hk : k1 ≠ k) : (Options.set o k v).lookup k1 = o.lookup k1 := by
  have hhead : (k1 == k) = false := by simpa using hk
  simp only [Options.set, List.lookup_cons, hhead]
  induction o with
  | nil => rfl
  | cons a o ih =>
    obtain ⟨a1, a2⟩ := a
    by_cases ha : a1 = k
    · subst ha
      simp [List.filter_cons, List.lookup_cons, hhead, ih]
    · simp only [List.filter_cons, bne_iff_ne, ne_eq, ha, not_false_eq_true, decide_True,
        if_true, List.lookup_cons, ih]

theorem Table_Column_appends (t : Table) (name colType : String) (o : Options)
    (hnew : ∀ c ∈ t.Columns, c.Name ≠ name) (hp : o.lookup "primary" = none)
    (hid : name ≠ "id") :
    t.Column name colType o
      = Except.ok { t with
          Columns := t.Columns
            ++ [{ Name := name, ColType := colType, Primary := false, Options := o }] } := by
  have hany : (t.Columns.any fun c => c.Name == name) = false := by
    rw [← Bool.not_eq_true]
    intro hc
    rw [List.any_eq_true] at hc
    obtain ⟨c, hc, hcn⟩ := hc
    exact hnew c hc (by simpa using hcn)
  have hidb : (name == "id") = false := by simpa using hid
  simp [Table.Column, hany, hp, hidb]

theorem CreateTable_unfold {τ : Type} (h : historyTranslator τ) (t : Table) (st : τ)
    (hcols : ∀ c ∈ t.Columns, c.Name ≠ "created_at" ∧ c.Name ≠ "deleted_at")
    (h1 : (h.Translator.CreateTable t.DisableTimestamps st).1.2 = none) :
    h.CreateTable t st
      = (((h.Translator.CreateTable t.DisableTimestamps st).1.1 ++ "\n"
            ++ (h.Translator.CreateTable
                { t.DisableTimestamps with
                  Name := t.Name ++ h.Suffix
                  ForeignKeys := []
                  Indexes := []
                  Columns := t.Columns.map (fun c => { c with Primary := false })
                    ++ [{ Name := "created_at", ColType := "timestamp", Primary := false,
                          Options := [] },
                        { Name := "deleted_at", ColType := "timestamp", Primary := false,
                          Options := [("null", GoValue.bool true)] }] }
                (h.Translator.CreateTable t.DisableTimestamps st).2).1.1,
          (h.Translator.CreateTable
              { t.DisableTimestamps with
                Name := t.Name ++ h.Suffix
                ForeignKeys := []
                Indexes := []
                Columns := t.Columns.map (fun c => { c with Primary := false })
                  ++ [{ Name := "created_at", ColType := "timestamp", Primary := false,
                        Options := [] },
                      { Name := "deleted_at", ColType := "timestamp", Primary := false,
                        Options := [("null", GoValue.bool true)] }] }
              (h.Translator.CreateTable t.DisableTimestamps st).2).1.2),
         (h.Translator.CreateTable
            { t.DisableTimestamps with
              Name := t.Name ++ h.Suffix
              ForeignKeys := []
              Indexes := []
              Columns := t.Columns.map (fun c => { c with Primary := false })
                ++ [{ Name := "created_at", ColType := "timestamp", Primary := false,
                      Options := [] },
                    { Name := "deleted_at", ColType := "timestamp", Primary := false,
                      Options := [("null", GoValue.bool true)] }] }
            (h.Translator.CreateTable t.DisableTimestamps st).2).2) := by
  have hc1 : ∀ c ∈ (t.Columns.map (fun c : Column => { c with Primary := false })),
      c.Name ≠ "created_at" := by
    intro c hc
    simp only [List.mem_map] at hc
    obtain ⟨c0, hc0, rfl⟩ := hc
    exact (hcols c0 hc0).1
  have hc2 : ∀ c ∈ (t.Columns.map (fun c : Column => { c with Primary := false }))
        ++ [({ Name := "created_at", ColType := "timestamp", Primary := false,
               Options := [] } : Column)],
      c.Name ≠ "deleted_at" := by
    intro c hc
    rw [List.mem_append] at hc
    rcases hc with hc | hc
    · simp only [List.mem_map] at hc
      obtain ⟨c0, hc0, rfl⟩ := hc
      exact (hcols c0 hc0).2
    · simp only [List.mem_singleton] at hc
      subst hc
      decide
  unfold historyTranslator.CreateTable
  simp only [h1]
  rw [Table_Column_appends _ "created_at" "timestamp" [] hc1 (by rfl) (by decide)]
  simp only []
  rw [Table_Column_appends _ "deleted_at" "timestamp" [("null", GoValue.bool true)] hc2
    (by decide) (by decide)]
  simp [Table.DisableTimestamps]

/-- C8: for every description `t` with no column named `created_at` or `deleted_at` there are
descriptions `t0` and `ts` such that: `t0` is `t` (name, columns, indexes, foreign keys, primary
keys) with only the option `timestamps` set to `false`; `ts` has the name of `t` with the suffix
appended, no foreign key, no index, and the columns of `t` in order with `Primary = false`
followed by `created_at` (timestamp, no option) and then `deleted_at` (timestamp, option
`null`); when the wrapped translator fails on `t0`, `CreateTable` returns the empty string with
that error and the wrapped translator has not been invoked again; when it succeeds on `t0`,
`CreateTable` returns the first text, a newline and the text for `ts`, with the error of the
second emission (none when it succeeds). -/
theorem createTable_base_then_shadow {τ : Type} (h : historyTranslator τ) (t : Table) (st : τ)
    (hcols : ∀ c ∈ t.Columns, c.Name ≠ "created_at" ∧ c.Name ≠ "deleted_at") :
    ∃ t0 ts : Table,
      (t0.Name = t.Name ∧ t0.Columns = t.Columns ∧ t0.Indexes = t.Indexes ∧
        t0.ForeignKeys = t.ForeignKeys ∧ t0.primaryKeys = t.primaryKeys ∧
        t0.Options.lookup "timestamps" = some (GoValue.bool false) ∧
        ∀ k, k ≠ "timestamps" → t0.Options.lookup k = t.Options.lookup k) ∧
      (ts.Name = t.Name ++ h.Suffix ∧ ts.ForeignKeys = [] ∧ ts.Indexes = [] ∧
        ts.Columns = t.Columns.map (fun c => { c with Primary := false })
          ++ [{ Name := "created_at", ColType := "timestamp", Primary := false, Options := [] },
              { Name := "deleted_at", ColType := "timestamp", Primary := false,
                Options := [("null", GoValue.bool true)] }] ∧
        ts.Options = t0.Options ∧ ts.primaryKeys = t.primaryKeys) ∧
      (∀ e, (h.Translator.CreateTable t0 st).1.2 = some e →
        h.CreateTable t st = (("", some e), (h.Translator.CreateTable t0 st).2)) ∧
      ((h.Translator.CreateTable t0 st).1.2 = none →
        h.CreateTable t st
          = (((h.Translator.CreateTable t0 st).1.1 ++ "\n"
                ++ (h.Translator.CreateTable ts (h.Translator.CreateTable t0 st).2).1.1,
              (h.Translator.CreateTable ts (h.Translator.CreateTable t0 st).2).1.2),
             (h.Translator.CreateTable ts (h.Translator.CreateTable t0 st).2).2)) := by
  refine ⟨t.DisableTimestamps,
    { t.DisableTimestamps with
      Name := t.Name ++ h.Suffix
      ForeignKeys := []
      Indexes := []
      Columns := t.Columns.map (fun c => { c with Primary := false })
        ++ [{ Name := "created_at", ColType := "timestamp", Primary := false, Options := [] },
            { Name := "deleted_at", ColType := "timestamp", Primary := false,
              Options := [("null", GoValue.bool true)] }] },
    ⟨rfl, rfl, rfl, rfl, rfl, Options_set_lookup_self _ _ _,
      fun k hk => Options_set_lookup_other _ _ _ k hk⟩,
    ⟨rfl, rfl, rfl, rfl, rfl, rfl⟩, ?_, ?_⟩
  · intro e he
    simp only [historyTranslator.CreateTable, he]
  · intro h1
    exact CreateTable_unfold h t st hcols h1

theorem createTable_base_then_shadow_witness :
    (∀ c ∈ usersTable.Columns, c.Name ≠ "created_at" ∧ c.Name ≠ "deleted_at") ∧
    ∃ t0 ts : Table,
      t0.Name = "users" ∧ ts.Name = "users" ++ "_history" ∧ ts.Indexes = [] ∧
      ts.Columns.map (fun c => (c.Name, c.Primary))
        = [("id", false), ("email", false), ("created_at", false), ("deleted_at", false)] ∧
      listingHistory.CreateTable usersTable []
        = (("CREATE TABLE " ++ t0.Name ++ ";" ++ "\n" ++ ("CREATE TABLE " ++ ts.Name ++ ";"),
            none), [t0, ts]) := by
  have hc : ∀ c ∈ usersTable.Columns, c.Name ≠ "created_at" ∧ c.Name ≠ "deleted_at" := by
    decide
  obtain ⟨t0, ts, ⟨hn0, _⟩, ⟨hns, _, hi, hcs, _⟩, _, hres⟩ :=
    createTable_base_then_shadow listingHistory usersTable [] hc
  refine ⟨hc, t0, ts, hn0, hns, hi, ?_, hres rfl⟩
  rw [hcs]
  rfl

/-- C9: for every pair of descriptions `old`, `new`: when either name ends with the suffix,
`RenameTable` returns the empty string with the error "operation already applies to historical
tables" and the wrapped translator's state is untouched; when neither does and the wrapped
translator succeeds on the pair and then on the pair with the suffix appended to both names
(nothing else changed), it returns the first text, a newline and the second text, with no
error. -/
theorem renameTable_pair {τ : Type} (h : historyTranslator τ) (old new : Table) (st : τ) :
    ((HasSuffix old.Name h.Suffix = true ∨ HasSuffix new.Name h.Suffix = true) →
      h.RenameTable [old, new] st
        = some (("", some (GoError.new "operation already applies to historical tables")),
            st)) ∧
    (HasSuffix old.Name h.Suffix = false → HasSuffix new.Name h.Suffix = false →
      (h.Translator.RenameTable [old, new] st).1.2 = none →
      (h.Translator.RenameTable
          [{ old with Name := old.Name ++ h.Suffix }, { new with Name := new.Name ++ h.Suffix }]
          (h.Translator.RenameTable [old, new] st).2).1.2 = none →
      h.RenameTable [old, new] st
        = some (((h.Translator.RenameTable [old, new] st).1.1 ++ "\n"
              ++ (h.Translator.RenameTable
                  [{ old with Name := old.Name ++ h.Suffix },
                   { new with Name := new.Name ++ h.Suffix }]
                  (h.Translator.RenameTable [old, new] st).2).1.1, none),
            (h.Translator.RenameTable
              [{ old with Name := old.Name ++ h.Suffix },
               { new with Name := new.Name ++ h.Suffix }]
              (h.Translator.RenameTable [old, new] st).2).2)) := by
  constructor
  · intro hs
    have hor : (HasSuffix old.Name h.Suffix || HasSuffix new.Name h.Suffix) = true := by
      rcases hs with hs | hs <;> simp [hs]
    simp only [historyTranslator.RenameTable, hor, if_true]
    rfl
  · intro ho hn h1 h2
    simp only [historyTranslator.RenameTable, ho, hn, Bool.or_self, Bool.false_eq_true,
      if_false, h1, h2]

theorem renameTable_pair_witness :
    HasSuffix "users" listingHistory.Suffix = false ∧
    HasSuffix "people_history" listingHistory.Suffix = true ∧
    listingHistory.RenameTable [usersTable, { usersTable with Name := "people_history" }] []
      = some (("", some (GoError.new "operation already applies to historical tables")), []) ∧
    listingHistory.RenameTable [usersTable, { usersTable with Name := "people" }] []
      = some (("RENAME TABLE users TO people;\nRENAME TABLE users_history TO people_history;",
            none),
          [usersTable, { usersTable with Name := "people" },
           { usersTable with Name := "users_history" },
           { usersTable with Name := "people_history" }]) :=
  ⟨by decide, by decide,
   (renameTable_pair listingHistory usersTable { usersTable with Name := "people_history" }
      []).1 (Or.inr (by decide)),
   (renameTable_pair listingHistory usersTable { usersTable with Name := "people" } []).2
      (by decide) (by decide) rfl rfl⟩

/-! ## The time-travel scope -/

/-- C10: `QueryHistory(q, t)` returns `q` with the clause
`created_at <= ? AND (deleted_at IS NULL OR deleted_at > ?)`, arguments `t, t`, appended at the
end of the where clauses and at the end of the global clauses, the table pattern set to `%v`
followed by the suffix, and the join clauses and raw SQL as they were. -/
theorem QueryHistory_appends_predicate {σ κ : Type} (h : historyDB σ κ) (q : Query) (t : Nat) :
    (h.QueryHistory q t).whereClauses
      = q.whereClauses
        ++ [{ Fragment := "created_at <= ? AND (deleted_at IS NULL OR deleted_at > ?)",
              Arguments := [GoValue.time t, GoValue.time t] }] ∧
    (h.QueryHistory q t).globalClauses
      = q.globalClauses
        ++ [{ Fragment := "created_at <= ? AND (deleted_at IS NULL OR deleted_at > ?)",
              Arguments := [GoValue.time t, GoValue.time t] }] ∧
    (h.QueryHistory q t).tablePattern = "%v" ++ h.Suffix ∧
    (h.QueryHistory q t).joinClauses = q.joinClauses ∧
    (h.QueryHistory q t).RawSQL = q.RawSQL ∧
    (h.QueryHistory q t).whereClauses.take q.whereClauses.length = q.whereClauses ∧
    (h.QueryHistory q t).globalClauses.take q.globalClauses.length = q.globalClauses := by
  refine ⟨rfl, rfl, rfl, rfl, rfl, ?_, ?_⟩
  · simp [historyDB.QueryHistory]
  · simp [historyDB.QueryHistory]

/-! ## The shadow table under Create, Update, Destroy -/

theorem close_id (id : GoValue) (t : Nat) (r : HistoryRow) :
    (HistoryRow.close id t r).id = r.id := by
  unfold HistoryRow.close
  split <;> rfl

theorem close_key (id : GoValue) (t : Nat) (r : HistoryRow) :
    (HistoryRow.close id t r).key = r.key := by
  unfold HistoryRow.close
  split <;> rfl

theorem close_span (id : GoValue) (t : Nat) (r : HistoryRow) (hr : r.id = id) :
    (HistoryRow.close id t r).span = closeSpan t r.span := by
  unfold HistoryRow.close closeSpan HistoryRow.span
  cases hd : r.deleted_at <;> simp [hr, hd]

theorem close_not_open (id : GoValue) (t : Nat) (r : HistoryRow) :
    ¬ ((HistoryRow.close id t r).id = id ∧ (HistoryRow.close id t r).deleted_at = none) := by
  unfold HistoryRow.close
  split
  · simp
  · assumption

theorem rowsOf_append (id : GoValue) (R R1 : List HistoryRow) :
    rowsOf id (R ++ R1) = rowsOf id R ++ rowsOf id R1 := by
  simp [rowsOf]

theorem rowsOf_map_close (id : GoValue) (t : Nat) (R : List HistoryRow) :
    rowsOf id (R.map (HistoryRow.close id t)) = (rowsOf id R).map (HistoryRow.close id t) := by
  unfold rowsOf
  rw [List.filter_map]
  congr 1
  apply List.filter_congr
  intro r _
  simp [close_id]

theorem rowsOf_mem (id : GoValue) (R : List HistoryRow) : ∀ r ∈ rowsOf id R, r.id = id := by
  intro r hr
  simpa using (List.mem_filter.mp hr).2

theorem map_span_close (id : GoValue) (t : Nat) (L : List HistoryRow)
    (hL : ∀ r ∈ L, r.id = id) :
    (L.map (HistoryRow.close id t)).map HistoryRow.span
      = (L.map HistoryRow.span).map (closeSpan t) := by
  rw [List.map_map, List.map_map]
  apply List.map_congr_left
  intro r hr
  exact close_span id t r (hL r hr)

theorem spans_snoc (a : Nat) (ts : List Nat) (t : Nat) :
    (spans a ts).map (closeSpan t) ++ [(t, none)] = spans a (ts ++ [t]) := by
  induction ts generalizing a with
  | nil => rfl
  | cons b ts ih =>
    simp only [spans, List.map_cons, List.cons_append, ih]
    rfl

theorem spans_close (a : Nat) (ts : List Nat) (d : Nat) :
    (spans a ts).map (closeSpan d) = closedSpans a d ts := by
  induction ts generalizing a with
  | nil => rfl
  | cons b ts ih =>
    simp only [spans, closedSpans, List.map_cons, ih]
    rfl

theorem spans_length (a : Nat) (ts : List Nat) : (spans a ts).length = ts.length + 1 := by
  induction ts generalizing a with
  | nil => rfl
  | cons b ts ih => simp [spans, ih]

theorem spans_open (a : Nat) (ts : List Nat) :
    (spans a ts).countP (fun p => p.2 = none) = 1 := by
  induction ts generalizing a with
  | nil => rfl
  | cons b ts ih => simp [spans, ih]

theorem closedSpans_open (a d : Nat) (ts : List Nat) :
    (closedSpans a d ts).countP (fun p => p.2 = none) = 0 := by
  induction ts generalizing a with
  | nil => rfl
  | cons b ts ih => simp [closedSpans, ih]

theorem spans_valid (t a : Nat) (ts : List Nat) (hs : (a :: ts).Pairwise (· ≤ ·)) :
    (spans a ts).countP (spanValid t) = if a ≤ t then 1 else 0 := by
  induction ts generalizing a with
  | nil => by_cases h : a ≤ t <;> simp [spans, spanValid, h]
  | cons b ts ih =>
    have hab : a ≤ b := (List.pairwise_cons.mp hs).1 b (List.mem_cons_self _ _)
    have hs1 : (b :: ts).Pairwise (· ≤ ·) := (List.pairwise_cons.mp hs).2
    simp only [spans, List.countP_cons, ih b hs1, spanValid]
    by_cases h1 : a ≤ t <;> by_cases h2 : b ≤ t <;> simp [h1, h2]
    all_goals omega

theorem closedSpans_valid (t a d : Nat) (ts : List Nat) (hs : (a :: ts).Pairwise (· ≤ ·))
    (hd : ∀ x ∈ a :: ts, x ≤ d) :
    (closedSpans a d ts).countP (spanValid t) = if a ≤ t ∧ t < d then 1 else 0 := by
  induction ts generalizing a with
  | nil => by_cases h : a ≤ t <;> by_cases h2 : t < d <;> simp [closedSpans, spanValid, h, h2]
  | cons b ts ih =>
    have hab : a ≤ b := (List.pairwise_cons.mp hs).1 b (List.mem_cons_self _ _)
    have hs1 : (b :: ts).Pairwise (· ≤ ·) := (List.pairwise_cons.mp hs).2
    have hd1 : ∀ x ∈ b :: ts, x ≤ d := fun x hx => hd x (List.mem_cons_of_mem _ hx)
    have hbd : b ≤ d := hd1 b (List.mem_cons_self _ _)
    simp only [closedSpans, List.countP_cons, ih b hs1 hd1, spanValid]
    by_cases h1 : a ≤ t <;> by_cases h2 : b ≤ t <;> by_cases h3 : t < d <;>
      simp [h1, h2, h3] <;> omega

theorem rows_after_create {σ κ : Type} (C : ColumnsPkg κ) (S : store σ) (h : historyDB σ κ)
    (tbl : String) (id : GoValue) (rows : σ → List HistoryRow)
    (hsem : ShadowTable C S h tbl id rows) (m : Model) (c : κ)
    (hbase : BaseCreates h.dialect m c tbl id rows) (s : σ) (now : Nat) :
    ∃ v, rows (h.Create C S s m c now).store
      = rows s ++ [{ id := id, values := v, created_at := now, deleted_at := none }] := by
  obtain ⟨hb1, hb2, hb3, hb4⟩ := hbase s
  obtain ⟨_, v, hi2⟩ := hsem.insert (h.dialect.Create s m c).model
    (h.dialect.Create s m c).store now hb3 hb4
  refine ⟨v, ?_⟩
  simp only [historyDB.Create, hb1]
  rw [hi2, hb2]

theorem rows_after_update {σ κ : Type} (C : ColumnsPkg κ) (S : store σ) (h : historyDB σ κ)
    (tbl : String) (id : GoValue) (rows : σ → List HistoryRow)
    (hsem : ShadowTable C S h tbl id rows) (hbase : BaseSucceeds h.dialect tbl id rows)
    (s : σ) (m : Model) (c : κ) (now : Nat) (hm : m.TableName = tbl ∧ m.ID = id) :
    ∃ v, rows (h.Update C S s m c now).store
      = (rows s).map (HistoryRow.close id now)
        ++ [{ id := id, values := v, created_at := now, deleted_at := none }] := by
  obtain ⟨hb1, hb2, hb3, hb4⟩ := hbase.update s m c hm.1 hm.2
  obtain ⟨hd1, hd2⟩ := hsem.close (h.dialect.Update s m c).model
    (h.dialect.Update s m c).store now hb3 hb4
  obtain ⟨_, v, hi2⟩ := hsem.insert (h.dialect.Update s m c).model
    (h.deleteHistory S (h.dialect.Update s m c).store (h.dialect.Update s m c).model now).1
    now hb3 hb4
  refine ⟨v, ?_⟩
  simp only [historyDB.Update, hb1, hd1, errorsWrap]
  rw [hi2, hd2, hb2]

theorem rows_after_destroy {σ κ : Type} (S : store σ) (C : ColumnsPkg κ) (h : historyDB σ κ)
    (tbl : String) (id : GoValue) (rows : σ → List HistoryRow)
    (hsem : ShadowTable C S h tbl id rows) (hbase : BaseSucceeds h.dialect tbl id rows)
    (s : σ) (m : Model) (now : Nat) (hm : m.TableName = tbl ∧ m.ID = id) :
    rows (h.Destroy S s m now).store = (rows s).map (HistoryRow.close id now) := by
  obtain ⟨hb1, hb2, hb3, hb4⟩ := hbase.destroy s m hm.1 hm.2
  obtain ⟨_, hd2⟩ := hsem.close (h.dialect.Destroy s m).model
    (h.dialect.Destroy s m).store now hb3 hb4
  simp only [historyDB.Destroy, hb1]
  rw [hd2, hb2]

theorem spans_after_updates {σ κ : Type} (C : ColumnsPkg κ) (S : store σ) (h : historyDB σ κ)
    (tbl : String) (id : GoValue) (rows : σ → List HistoryRow)
    (hsem : ShadowTable C S h tbl id rows) (hbase : BaseSucceeds h.dialect tbl id rows)
    (a : Nat) (us : List (UpdateCall κ))
    (hus : ∀ u ∈ us, u.model.TableName = tbl ∧ u.model.ID = id) :
    ∀ (s : σ) (ts : List Nat), (rowsOf id (rows s)).map HistoryRow.span = spans a ts →
      (rowsOf id (rows (h.Updates C S s us))).map HistoryRow.span
        = spans a (ts ++ us.map (fun u => u.now)) := by
  induction us with
  | nil => intro s ts hinv; simpa [historyDB.Updates] using hinv
  | cons u us ih =>
    intro s ts hinv
    obtain ⟨v, hv⟩ := rows_after_update C S h tbl id rows hsem hbase s u.model u.cols u.now
      (hus u (List.mem_cons_self _ _))
    have hstep : (rowsOf id (rows (h.Update C S s u.model u.cols u.now).store)).map
        HistoryRow.span = spans a (ts ++ [u.now]) := by
      rw [hv, rowsOf_append, rowsOf_map_close, List.map_append,
        map_span_close id u.now _ (rowsOf_mem id _), hinv, ← spans_snoc]
      simp [rowsOf, HistoryRow.span]
    have := ih (fun x hx => hus x (List.mem_cons_of_mem _ hx)) _ _ hstep
    simpa [historyDB.Updates] using this

theorem spans_after_create_updates {σ κ : Type} (C : ColumnsPkg κ) (S : store σ)
    (h : historyDB σ κ) (tbl : String) (id : GoValue) (rows : σ → List HistoryRow)
    (hsem : ShadowTable C S h tbl id rows) (hbase : BaseSucceeds h.dialect tbl id rows)
    (s0 : σ) (hfresh : ∀ r ∈ rows s0, r.id ≠ id) (m0 : Model) (c0 : κ) (t0 : Nat)
    (hcreate : BaseCreates h.dialect m0 c0 tbl id rows) (us : List (UpdateCall κ))
    (hus : ∀ u ∈ us, u.model.TableName = tbl ∧ u.model.ID = id) :
    (rowsOf id (rows (h.CreateThenUpdates C S s0 m0 c0 t0 us))).map HistoryRow.span
      = spans t0 (us.map (fun u => u.now)) := by
  obtain ⟨v, hv⟩ := rows_after_create C S h tbl id rows hsem m0 c0 hcreate s0 t0
  have hnone : rowsOf id (rows s0) = [] := by
    unfold rowsOf
    rw [List.filter_eq_nil_iff]
    intro r hr
    simpa using hfresh r hr
  have h0 : (rowsOf id (rows (h.Create C S s0 m0 c0 t0).store)).map HistoryRow.span
      = spans t0 [] := by
    rw [hv, rowsOf_append, hnone]
    simp [rowsOf, HistoryRow.span, spans]
  have := spans_after_updates C S h tbl id rows hsem hbase t0 us hus _ [] h0
  simpa [historyDB.CreateThenUpdates] using this

theorem demo_insert_sql_head (σ : Type) (m : Model) :
    ((demoHistory σ).insertHistorySQL demoColumns m).data.take 6
      = ['I', 'N', 'S', 'E', 'R', 'T'] := by
  simp only [historyDB.insertHistorySQL, demoHistory, demoDialect, String.data_append,
    List.append_assoc]
  rfl

theorem demo_close_sql_head (σ : Type) (m : Model) :
    ((demoHistory σ).deleteHistorySQL m).data.take 6 ≠ ['I', 'N', 'S', 'E', 'R', 'T'] := by
  have h6 : ((demoHistory σ).deleteHistorySQL m).data.take 6
      = ['U', 'P', 'D', 'A', 'T', 'E'] := by
    simp only [historyDB.deleteHistorySQL, demoHistory, demoDialect, String.data_append,
      List.append_assoc]
    rfl
  rw [h6]
  decide

theorem demo_shadowTable :
    ShadowTable demoColumns tableStore (demoHistory (List HistoryRow)) "users" (GoValue.int 1)
      (fun s => s) where
  insert m s t _ hid := by
    simp only [historyDB.insertHistory, tableStore, demo_insert_sql_head, if_true, hid]
    exact ⟨trivial, [], rfl⟩
  close m s t _ hid := by
    simp only [historyDB.deleteHistory, tableStore, demo_close_sql_head, if_false, hid]
    exact ⟨trivial, trivial⟩

theorem demo_baseSucceeds :
    BaseSucceeds (demoHistory (List HistoryRow)).dialect "users" (GoValue.int 1)
      (fun s => s) where
  update _ _ _ htbl hid := ⟨rfl, rfl, htbl, hid⟩
  destroy _ _ htbl hid := ⟨rfl, rfl, htbl, hid⟩

theorem demo_baseCreates :
    BaseCreates (demoHistory (List HistoryRow)).dialect demoModel [] "users" (GoValue.int 1)
      (fun s => s) :=
  fun _ => ⟨rfl, rfl, rfl, rfl⟩

theorem openRowsOf_length (id : GoValue) (R : List HistoryRow) :
    (openRowsOf id R).length
      = ((rowsOf id R).map HistoryRow.span).countP (fun p => p.2 = none) := by
  rw [List.countP_map, List.countP_eq_length_filter, rowsOf, List.filter_filter]
  unfold openRowsOf
  congr 2
  funext r
  simp [HistoryRow.span, Bool.and_comm]

theorem QueryHistory_last_clause {σ κ : Type} (h : historyDB σ κ) (q : Query) (t : Nat)
    (c : clause) (hc : (h.QueryHistory q t).whereClauses.getLast? = some c) :
    c = { Fragment := historyFragment, Arguments := [GoValue.time t, GoValue.time t] } := by
  simp [historyDB.QueryHistory] at hc
  exact hc.symm

theorem history_clause_holds (t : Nat) (r : HistoryRow) :
    clause.holds { Fragment := historyFragment, Arguments := [GoValue.time t, GoValue.time t] } r
      = some (r.valid t t) := by
  simp [clause.holds]

theorem valid_eq_spanValid (t : Nat) (r : HistoryRow) : r.valid t t = spanValid t r.span := rfl

theorem valid_iff_covers (t : Nat) (r : HistoryRow) : r.valid t t = true ↔ r.covers t := by
  unfold HistoryRow.valid HistoryRow.covers
  cases hd : r.deleted_at <;> simp

theorem matching_length (t : Nat) (id : GoValue) (R : List HistoryRow) :
    (matching { Fragment := historyFragment, Arguments := [GoValue.time t, GoValue.time t] }
        id R).length
      = ((rowsOf id R).map HistoryRow.span).countP (spanValid t) := by
  rw [List.countP_map, List.countP_eq_length_filter, rowsOf, List.filter_filter]
  unfold matching
  congr 2
  funext r
  simp [history_clause_holds, valid_eq_spanValid, Bool.and_comm]

theorem mem_matching (t : Nat) (id : GoValue) (R : List HistoryRow) (r : HistoryRow) :
    r ∈ matching { Fragment := historyFragment, Arguments := [GoValue.time t, GoValue.time t] }
        id R
      ↔ r ∈ R ∧ r.id = id ∧ r.covers t := by
  unfold matching
  rw [List.mem_filter]
  simp [history_clause_holds, valid_iff_covers]

/-- C1: on an executor that holds the shadow table as a list of rows (the insert statement
appends one open row, the close statement stamps every open row of the id) and with a base
dialect whose operations succeed, for an entity id with no row yet: after `Create` and the first
`k` of any run of `Update` calls the table holds `k + 1` rows of the id, at most one of them
open (before `Create` it holds none); after `Destroy` following the whole run it holds no open
row of the id, still one row per version, and the rows present before `Destroy` are all still
there with their id, values and `created_at` (only `deleted_at` was stamped). -/
theorem shadow_one_row_per_version {σ κ : Type} (C : ColumnsPkg κ) (S : store σ)
    (h : historyDB σ κ) (tbl : String) (id : GoValue) (rows : σ → List HistoryRow)
    (hsem : ShadowTable C S h tbl id rows) (hbase : BaseSucceeds h.dialect tbl id rows)
    (s0 : σ) (hfresh : ∀ r ∈ rows s0, r.id ≠ id) (m0 : Model) (c0 : κ) (t0 : Nat)
    (hcreate : BaseCreates h.dialect m0 c0 tbl id rows) (us : List (UpdateCall κ))
    (hus : ∀ u ∈ us, u.model.TableName = tbl ∧ u.model.ID = id)
    (mD : Model) (tD : Nat) (hD : mD.TableName = tbl ∧ mD.ID = id) :
    ((rowsOf id (rows s0)).length = 0 ∧ (openRowsOf id (rows s0)).length ≤ 1) ∧
    (∀ k, k ≤ us.length →
      (rowsOf id (rows (h.CreateThenUpdates C S s0 m0 c0 t0 (us.take k)))).length = k + 1 ∧
      (openRowsOf id (rows (h.CreateThenUpdates C S s0 m0 c0 t0 (us.take k)))).length ≤ 1) ∧
    (openRowsOf id
        (rows (h.Destroy S (h.CreateThenUpdates C S s0 m0 c0 t0 us) mD tD).store)).length = 0 ∧
    (rowsOf id
        (rows (h.Destroy S (h.CreateThenUpdates C S s0 m0 c0 t0 us) mD tD).store)).length
      = us.length + 1 ∧
    (rows (h.Destroy S (h.CreateThenUpdates C S s0 m0 c0 t0 us) mD tD).store).map
        HistoryRow.key
      = (rows (h.CreateThenUpdates C S s0 m0 c0 t0 us)).map HistoryRow.key := by
  have hall := spans_after_create_updates C S h tbl id rows hsem hbase s0 hfresh m0 c0 t0
    hcreate us hus
  have hdes := rows_after_destroy S C h tbl id rows hsem hbase
    (h.CreateThenUpdates C S s0 m0 c0 t0 us) mD tD hD
  have hdspans : (rowsOf id (rows (h.Destroy S (h.CreateThenUpdates C S s0 m0 c0 t0 us)
      mD tD).store)).map HistoryRow.span = closedSpans t0 tD (us.map (fun u => u.now)) := by
    rw [hdes, rowsOf_map_close, map_span_close id tD _ (rowsOf_mem id _), hall, spans_close]
  have hnone : rowsOf id (rows s0) = [] := by
    unfold rowsOf
    rw [List.filter_eq_nil_iff]
    intro r hr
    simpa using hfresh r hr
  refine ⟨⟨by rw [hnone]; rfl, by rw [openRowsOf_length, hnone]; simp⟩, ?_, ?_, ?_, ?_⟩
  · intro k hk
    have hk1 := spans_after_create_updates C S h tbl id rows hsem hbase s0 hfresh m0 c0 t0
      hcreate (us.take k) (fun u hu => hus u (List.mem_of_mem_take hu))
    constructor
    · have := congrArg List.length hk1
      simpa [spans_length, Nat.min_eq_left hk] using this
    · rw [openRowsOf_length, hk1, spans_open]
  · rw [openRowsOf_length, hdspans, closedSpans_open]
  · have := congrArg List.length hdspans
    rw [← spans_close, List.length_map, List.length_map, spans_length] at this
    simpa using this
  · rw [hdes, List.map_map]
    apply List.map_congr_left
    intro r _
    exact close_key id tD r

/-- C2: in the setting of C1 with the instants of `Create` and the `Update` calls non-decreasing
in call order, for every instant `t` and the clause `c` that `QueryHistory(q, t)` appends: a
row satisfies `c` exactly when it is a row of the id whose interval `[created_at, deleted_at)`
contains `t`; while the entity is live exactly one row matches when `t` is at or after the
`Create` instant and none before it; after a `Destroy` at an instant not before the earlier ones,
exactly one row matches when `t` is at or after the `Create` instant and before the `Destroy`
instant, and none otherwise. So at most one row ever matches. -/
theorem history_read_one_version {σ κ : Type} (C : ColumnsPkg κ) (S : store σ)
    (h : historyDB σ κ) (tbl : String) (id : GoValue) (rows : σ → List HistoryRow)
    (hsem : ShadowTable C S h tbl id rows) (hbase : BaseSucceeds h.dialect tbl id rows)
    (s0 : σ) (hfresh : ∀ r ∈ rows s0, r.id ≠ id) (m0 : Model) (c0 : κ) (t0 : Nat)
    (hcreate : BaseCreates h.dialect m0 c0 tbl id rows) (us : List (UpdateCall κ))
    (hus : ∀ u ∈ us, u.model.TableName = tbl ∧ u.model.ID = id)
    (hsorted : (t0 :: us.map (fun u => u.now)).Pairwise (· ≤ ·))
    (mD : Model) (tD : Nat) (hD : mD.TableName = tbl ∧ mD.ID = id)
    (q : Query) (t : Nat) (c : clause)
    (hc : (h.QueryHistory q t).whereClauses.getLast? = some c) :
    (∀ (R : List HistoryRow) (r : HistoryRow),
      r ∈ matching c id R ↔ r ∈ R ∧ r.id = id ∧ r.covers t) ∧
    (matching c id (rows (h.CreateThenUpdates C S s0 m0 c0 t0 us))).length
      = (if t0 ≤ t then 1 else 0) ∧
    ((∀ x ∈ t0 :: us.map (fun u => u.now), x ≤ tD) →
      (matching c id
          (rows (h.Destroy S (h.CreateThenUpdates C S s0 m0 c0 t0 us) mD tD).store)).length
        = (if t0 ≤ t ∧ t < tD then 1 else 0)) := by
  have hceq := QueryHistory_last_clause h q t c hc
  subst hceq
  have hall := spans_after_create_updates C S h tbl id rows hsem hbase s0 hfresh m0 c0 t0
    hcreate us hus
  have hdes := rows_after_destroy S C h tbl id rows hsem hbase
    (h.CreateThenUpdates C S s0 m0 c0 t0 us) mD tD hD
  refine ⟨fun R r => mem_matching t id R r, ?_, ?_⟩
  · rw [matching_length, hall, spans_valid t t0 _ hsorted]
  · intro hle
    rw [matching_length, hdes, rowsOf_map_close, map_span_close id tD _ (rowsOf_mem id _), hall,
      spans_close, closedSpans_valid t t0 tD _ hsorted hle]

theorem shadow_one_row_per_version_witness :
    (rowsOf (GoValue.int 1)
        (historyDB.CreateThenUpdates demoColumns tableStore (demoHistory (List HistoryRow)) []
          demoModel [] 10 demoUpdates)).length = 3 ∧
    (openRowsOf (GoValue.int 1)
        (historyDB.CreateThenUpdates demoColumns tableStore (demoHistory (List HistoryRow)) []
          demoModel [] 10 demoUpdates)).length ≤ 1 ∧
    (openRowsOf (GoValue.int 1)
        (historyDB.Destroy tableStore (demoHistory (List HistoryRow))
          (historyDB.CreateThenUpdates demoColumns tableStore (demoHistory (List HistoryRow)) []
            demoModel [] 10 demoUpdates) demoModel 40).store).length = 0 :=
  have H := shadow_one_row_per_version demoColumns tableStore (demoHistory (List HistoryRow))
    "users" (GoValue.int 1) (fun s => s) demo_shadowTable demo_baseSucceeds []
    (fun _ hr => absurd hr (List.not_mem_nil _)) demoModel [] 10 demo_baseCreates demoUpdates
    (by decide) demoModel 40 ⟨rfl, rfl⟩
  ⟨(H.2.1 2 (by decide)).1, (H.2.1 2 (by decide)).2, H.2.2.1⟩

theorem history_read_one_version_witness :
    (matching { Fragment := historyFragment, Arguments := [GoValue.time 25, GoValue.time 25] }
        (GoValue.int 1)
        (historyDB.CreateThenUpdates demoColumns tableStore (demoHistory (List HistoryRow)) []
          demoModel [] 10 demoUpdates)).length = 1 ∧
    (matching { Fragment := historyFragment, Arguments := [GoValue.time 40, GoValue.time 40] }
        (GoValue.int 1)
        (historyDB.Destroy tableStore (demoHistory (List HistoryRow))
          (historyDB.CreateThenUpdates demoColumns tableStore (demoHistory (List HistoryRow)) []
            demoModel [] 10 demoUpdates) demoModel 40).store).length = 0 :=
  have H := fun t => history_read_one_version demoColumns tableStore
    (demoHistory (List HistoryRow))
    "users" (GoValue.int 1) (fun s => s) demo_shadowTable demo_baseSucceeds []
    (fun _ hr => absurd hr (List.not_mem_nil _)) demoModel [] 10 demo_baseCreates demoUpdates
    (by decide) (by decide) demoModel 40 ⟨rfl, rfl⟩ emptyQuery t
    { Fragment := historyFragment, Arguments := [GoValue.time t, GoValue.time t] } rfl
  ⟨(H 25).2.1, (H 40).2.2 (by decide)⟩

/-! ## Join builders -/

theorem join_of_raw (tok : String) (q : Query) (joinType table onSQL : String)
    (args : List GoValue) (hraw : q.RawSQL.Fragment ≠ "") :
    q.join tok joinType table onSQL args = q := by
  simp [Query.join, hraw]

theorem join_of_not_raw (tok : String) (q : Query) (joinType table onSQL : String)
    (args : List GoValue) (hraw : q.RawSQL.Fragment = "") :
    q.join tok joinType table onSQL args
      = { q with
          globalClauses := q.globalClauses.map (clause.forAlias tok table)
          joinClauses := q.joinClauses
            ++ [{ JoinType := joinType
                  Table := fmt.Sprintf (q.tablePattern ++ " AS %v") [table, table]
                  On := { Fragment := onSQL, Arguments := args }
                    :: q.globalClauses.map (clause.forAlias tok table) }] } := by
  simp [Query.join, hraw, clause.forAlias]

theorem joinBy_eq_join (tok : String) (q : Query) (kind : JoinKind) :
    q.joinBy tok kind = q.join tok kind.keyword := by
  cases kind <;> rfl

/-- C18: for a query whose raw-SQL fragment is not empty, each of Join, LeftJoin, RightJoin,
LeftOuterJoin, RightOuterJoin and InnerJoin, with any arguments, returns the query as it was:
join clauses, global clauses, where clauses and table pattern are unchanged. -/
theorem raw_query_join_unchanged (tok : String) (q : Query) (kind : JoinKind)
    (table onSQL : String) (args : List GoValue) (hraw : q.RawSQL.Fragment ≠ "") :
    q.joinBy tok kind table onSQL args = q ∧
    (q.joinBy tok kind table onSQL args).joinClauses = q.joinClauses ∧
    (q.joinBy tok kind table onSQL args).globalClauses = q.globalClauses ∧
    (q.joinBy tok kind table onSQL args).whereClauses = q.whereClauses ∧
    (q.joinBy tok kind table onSQL args).tablePattern = q.tablePattern := by
  have hq : q.joinBy tok kind table onSQL args = q := by
    rw [joinBy_eq_join]
    exact join_of_raw tok q _ table onSQL args hraw
  rw [hq]
  exact ⟨rfl, rfl, rfl, rfl, rfl⟩

theorem raw_query_join_unchanged_witness :
    rawQuery.RawSQL.Fragment ≠ "" ∧
    rawQuery.LeftJoin "%TABLE_NAME%" "b" "b.id = x.b_id" [] = rawQuery :=
  ⟨by decide,
   (raw_query_join_unchanged "%TABLE_NAME%" rawQuery JoinKind.LeftJoin "b" "b.id = x.b_id" []
      (by decide)).1⟩

/-- C11 (the code at the failing input): with the alias token `%TABLE_NAME%`, on a non-raw query
whose global clause is `%TABLE_NAME%.deleted_at IS NULL`, a join on `a` followed by a join on
`b` leaves the second join with the predicate `a.deleted_at IS NULL`: the first join wrote its
substituted text back into the query's global clause, so no token was left for the second. -/
theorem second_join_gets_first_alias :
    ((aliasQuery.Join "%TABLE_NAME%" "a" "a.id = x.a_id" []).Join "%TABLE_NAME%" "b"
        "b.id = x.b_id" []).joinClauses
      = [{ JoinType := "JOIN", Table := "a AS a",
           On := [{ Fragment := "a.id = x.a_id", Arguments := [] },
                  { Fragment := "a.deleted_at IS NULL", Arguments := [] }] },
         { JoinType := "JOIN", Table := "b AS b",
           On := [{ Fragment := "b.id = x.b_id", Arguments := [] },
                  { Fragment := "a.deleted_at IS NULL", Arguments := [] }] }] ∧
    (aliasQuery.Join "%TABLE_NAME%" "a" "a.id = x.a_id" []).globalClauses
      = [{ Fragment := "a.deleted_at IS NULL", Arguments := [] }] := by
  constructor <;> rfl

theorem steps_append {σ κ : Type} (tok : String) (h : historyDB σ κ) (q : Query)
    (xs ys : List QueryStep) :
    q.steps tok h (xs ++ ys) = (q.steps tok h xs).steps tok h ys := by
  induction xs generalizing q with
  | nil => rfl
  | cons x xs ih => exact ih (q.step tok h x)

theorem step_RawSQL {σ κ : Type} (tok : String) (h : historyDB σ κ) (q : Query)
    (st : QueryStep) : (q.step tok h st).RawSQL = q.RawSQL := by
  cases st with
  | join kind table onSQL args =>
    simp only [Query.step, joinBy_eq_join]
    by_cases hraw : q.RawSQL.Fragment = ""
    · rw [join_of_not_raw tok q _ table onSQL args hraw]
    · rw [join_of_raw tok q _ table onSQL args hraw]
  | history t => rfl

theorem steps_RawSQL {σ κ : Type} (tok : String) (h : historyDB σ κ) (q : Query)
    (xs : List QueryStep) : (q.steps tok h xs).RawSQL = q.RawSQL := by
  induction xs generalizing q with
  | nil => rfl
  | cons x xs ih => simp only [Query.steps, ih, step_RawSQL]

theorem step_joinClauses {σ κ : Type} (tok : String) (h : historyDB σ κ) (q : Query)
    (st : QueryStep) : ∃ added, (q.step tok h st).joinClauses = q.joinClauses ++ added := by
  cases st with
  | join kind table onSQL args =>
    simp only [Query.step, joinBy_eq_join]
    by_cases hraw : q.RawSQL.Fragment = ""
    · rw [join_of_not_raw tok q _ table onSQL args hraw]
      exact ⟨_, rfl⟩
    · rw [join_of_raw tok q _ table onSQL args hraw]
      exact ⟨[], by simp⟩
  | history t => exact ⟨[], by simp [Query.step, historyDB.QueryHistory]⟩

theorem steps_joinClauses {σ κ : Type} (tok : String) (h : historyDB σ κ) (q : Query)
    (xs : List QueryStep) :
    ∃ added, (q.steps tok h xs).joinClauses = q.joinClauses ++ added := by
  induction xs generalizing q with
  | nil => exact ⟨[], by simp [Query.steps]⟩
  | cons x xs ih =>
    obtain ⟨a1, h1⟩ := step_joinClauses tok h q x
    obtain ⟨a2, h2⟩ := ih (q.step tok h x)
    exact ⟨a1 ++ a2, by simp only [Query.steps, h2, h1, List.append_assoc]⟩

theorem take_snoc_append {α : Type} (l : List α) (x : α) (rest : List α) :
    (l ++ [x] ++ rest).take (l.length + 1) = l ++ [x] := by
  induction l with
  | nil => simp
  | cons a l ih => simpa using ih

theorem step_globalArgs {σ κ : Type} (tok : String) (h : historyDB σ κ) (q : Query)
    (st : QueryStep) :
    (q.step tok h st).globalClauses.map (fun g => g.Arguments)
      = q.globalClauses.map (fun g => g.Arguments) ++ st.registers := by
  cases st with
  | join kind table onSQL args =>
    simp only [Query.step, joinBy_eq_join, QueryStep.registers, List.append_nil]
    by_cases hraw : q.RawSQL.Fragment = ""
    · rw [join_of_not_raw tok q _ table onSQL args hraw]
      simp [clause.forAlias, Function.comp_def]
    · rw [join_of_raw tok q _ table onSQL args hraw]
  | history t => simp [Query.step, historyDB.QueryHistory, QueryStep.registers]

theorem steps_globalArgs {σ κ : Type} (tok : String) (h : historyDB σ κ) (q : Query)
    (xs : List QueryStep) :
    (q.steps tok h xs).globalClauses.map (fun g => g.Arguments) = registeredArgs q xs := by
  induction xs generalizing q with
  | nil => simp [Query.steps, registeredArgs]
  | cons x xs ih =>
    simp only [Query.steps, ih, registeredArgs, step_globalArgs, List.flatMap_cons,
      List.append_assoc]

/-- C12 (as amended): for a non-raw query and any run of join and `QueryHistory` calls: a join
added after the run appends one join clause, of the builder's join type, whose ON list is its
own predicate followed by one predicate for each global predicate registered on the query
before that join (those the query held at the start, then one per earlier `QueryHistory` call),
in registration order and with the arguments of each; and no later call, `QueryHistory`
included, changes a join clause that is already there, so a predicate registered after a join
is not carried by it. -/
theorem joins_carry_globals_registered_before {σ κ : Type} (tok : String) (h : historyDB σ κ)
    (q : Query) (hraw : q.RawSQL.Fragment = "") (before later : List QueryStep)
    (kind : JoinKind) (table onSQL : String) (args : List GoValue) (t : Nat) :
    (∃ c : joinClause,
      (q.steps tok h (before ++ [QueryStep.join kind table onSQL args])).joinClauses
        = (q.steps tok h before).joinClauses ++ [c] ∧
      c.JoinType = kind.keyword ∧
      c.On.head? = some { Fragment := onSQL, Arguments := args } ∧
      c.On.tail.map (fun g => g.Arguments) = registeredArgs q before ∧
      (q.steps tok h (before ++ [QueryStep.join kind table onSQL args] ++ later)).joinClauses.take
          ((q.steps tok h before).joinClauses.length + 1)
        = (q.steps tok h before).joinClauses ++ [c]) ∧
    (q.steps tok h (before ++ later)).joinClauses.take (q.steps tok h before).joinClauses.length
      = (q.steps tok h before).joinClauses ∧
    (q.steps tok h (before ++ [QueryStep.history t])).joinClauses
      = (q.steps tok h before).joinClauses := by
  have hr : (q.steps tok h before).RawSQL.Fragment = "" := by rw [steps_RawSQL]; exact hraw
  have hjoin : (q.steps tok h (before ++ [QueryStep.join kind table onSQL args])).joinClauses
      = (q.steps tok h before).joinClauses
        ++ [{ JoinType := kind.keyword
              Table := fmt.Sprintf ((q.steps tok h before).tablePattern ++ " AS %v")
                [table, table]
              On := { Fragment := onSQL, Arguments := args }
                :: (q.steps tok h before).globalClauses.map (clause.forAlias tok table) }] := by
    rw [steps_append]
    simp only [Query.steps, Query.step, joinBy_eq_join]
    rw [join_of_not_raw tok _ _ table onSQL args hr]
  refine ⟨⟨_, hjoin, rfl, rfl, ?_, ?_⟩, ?_, ?_⟩
  · rw [← steps_globalArgs tok h q before]
    simp [clause.forAlias, Function.comp_def]
  · rw [steps_append]
    obtain ⟨added, ha⟩ := steps_joinClauses tok h
      (q.steps tok h (before ++ [QueryStep.join kind table onSQL args])) later
    rw [ha, hjoin]
    exact take_snoc_append _ _ _
  · rw [steps_append]
    obtain ⟨added, ha⟩ := steps_joinClauses tok h (q.steps tok h before) later
    rw [ha]
    simp
  · rw [steps_append]
    rfl

theorem joins_carry_globals_registered_before_witness :
    aliasQuery.RawSQL.Fragment = "" ∧
    ∃ c : joinClause,
      (aliasQuery.steps "%TABLE_NAME%" (demoHistory Unit)
          [QueryStep.join JoinKind.Join "a" "a.id = x.a_id" [], QueryStep.history 2,
           QueryStep.join JoinKind.LeftJoin "b" "b.x = ?" [GoValue.int 5],
           QueryStep.history 9]).joinClauses
        = [{ JoinType := "JOIN", Table := "a AS a",
             On := [{ Fragment := "a.id = x.a_id", Arguments := [] },
                    { Fragment := "a.deleted_at IS NULL", Arguments := [] }] }, c] ∧
      c.JoinType = "LEFT JOIN" ∧
      c.On.head? = some { Fragment := "b.x = ?", Arguments := [GoValue.int 5] } ∧
      c.On.tail.map (fun g => g.Arguments) = [[], [GoValue.time 2, GoValue.time 2]] := by
  obtain ⟨⟨c, _, hty, hhead, hargs, htake⟩, _, _⟩ :=
    joins_carry_globals_registered_before "%TABLE_NAME%" (demoHistory Unit) aliasQuery rfl
      [QueryStep.join JoinKind.Join "a" "a.id = x.a_id" [], QueryStep.history 2]
      [QueryStep.history 9] JoinKind.LeftJoin "b" "b.x = ?" [GoValue.int 5] 0
  refine ⟨rfl, c, ?_, hty, hhead, hargs⟩
  have hlen : (aliasQuery.steps "%TABLE_NAME%" (demoHistory Unit)
      [QueryStep.join JoinKind.Join "a" "a.id = x.a_id" [], QueryStep.history 2,
       QueryStep.join JoinKind.LeftJoin "b" "b.x = ?" [GoValue.int 5],
       QueryStep.history 9]).joinClauses.length = 2 := rfl
  have hfull := List.take_length (aliasQuery.steps "%TABLE_NAME%" (demoHistory Unit)
      [QueryStep.join JoinKind.Join "a" "a.id = x.a_id" [], QueryStep.history 2,
       QueryStep.join JoinKind.LeftJoin "b" "b.x = ?" [GoValue.int 5],
       QueryStep.history 9]).joinClauses
  rw [hlen] at hfull
  rw [← hfull]
  exact htake

/-- C12 (as stated) fails: a join added before `QueryHistory` keeps the ON list it had, so the
query then holds a global predicate that this join clause does not carry. -/
theorem earlier_join_misses_later_global :
    emptyQuery.RawSQL.Fragment = "" ∧
    (emptyQuery.steps "%TABLE_NAME%" (demoHistory Unit)
        [QueryStep.join JoinKind.Join "b" "b.x = ?" [GoValue.int 5],
         QueryStep.history 2]).joinClauses
      = [{ JoinType := "JOIN", Table := "b AS b",
           On := [{ Fragment := "b.x = ?", Arguments := [GoValue.int 5] }] }] ∧
    (emptyQuery.steps "%TABLE_NAME%" (demoHistory Unit)
        [QueryStep.join JoinKind.Join "b" "b.x = ?" [GoValue.int 5],
         QueryStep.history 2]).globalClauses
      = [{ Fragment := historyFragment, Arguments := [GoValue.time 2, GoValue.time 2] }] ∧
    ¬ (∀ j ∈ (emptyQuery.steps "%TABLE_NAME%" (demoHistory Unit)
          [QueryStep.join JoinKind.Join "b" "b.x = ?" [GoValue.int 5],
           QueryStep.history 2]).joinClauses,
        ∀ g ∈ (emptyQuery.steps "%TABLE_NAME%" (demoHistory Unit)
          [QueryStep.join JoinKind.Join "b" "b.x = ?" [GoValue.int 5],
           QueryStep.history 2]).globalClauses,
        ∃ c ∈ j.On, c.Arguments = g.Arguments) := by
  have hj : (emptyQuery.steps "%TABLE_NAME%" (demoHistory Unit)
        [QueryStep.join JoinKind.Join "b" "b.x = ?" [GoValue.int 5],
         QueryStep.history 2]).joinClauses
      = [{ JoinType := "JOIN", Table := "b AS b",
           On := [{ Fragment := "b.x = ?", Arguments := [GoValue.int 5] }] }] := rfl
  have hg : (emptyQuery.steps "%TABLE_NAME%" (demoHistory Unit)
        [QueryStep.join JoinKind.Join "b" "b.x = ?" [GoValue.int 5],
         QueryStep.history 2]).globalClauses
      = [{ Fragment := historyFragment, Arguments := [GoValue.time 2, GoValue.time 2] }] := rfl
  refine ⟨rfl, hj, hg, ?_⟩
  rw [hj, hg]
  decide

theorem fmt_scan_plain (pre : List Char) (hp : '%' ∉ pre) (rest : List Char)
    (args : List String) : fmt.scan (pre ++ rest) args = pre ++ fmt.scan rest args := by
  induction pre with
  | nil => rfl
  | cons c pre ih =>
    have hc : c ≠ '%' := fun hEq => hp (hEq ▸ List.mem_cons_self _ _)
    have hpre : '%' ∉ pre := fun hm => hp (List.mem_cons_of_mem _ hm)
    rw [List.cons_append, fmt.scan.eq_def]
    simp only [hc, if_false, ih hpre, List.cons_append]

theorem fmt_scan_verb_v (rest : List Char) (a : String) (args : List String) :
    fmt.scan ('%' :: 'v' :: rest) (a :: args) = a.data ++ fmt.scan rest args := by
  simp [fmt.scan]

theorem Sprintf_history_pattern (S T : String) (hS : '%' ∉ S.data) :
    fmt.Sprintf ("%v" ++ S ++ " AS %v") [T, T] = T ++ S ++ " AS " ++ T := by
  apply String.ext
  have hfmt : ("%v" ++ S ++ " AS %v").data
      = '%' :: 'v' :: (S.data ++ ([' ', 'A', 'S', ' '] ++ ['%', 'v'])) := by
    simp [String.data_append]
  have hsep : '%' ∉ [' ', 'A', 'S', ' '] := by decide
  simp only [fmt.Sprintf, hfmt, fmt_scan_verb_v, fmt_scan_plain _ hS, fmt_scan_plain _ hsep,
    String.data_append]
  simp [fmt.scan, fmt.extra]

theorem clauses_Args_append (a b : clauses) :
    clauses.Args (a ++ b) = clauses.Args a ++ clauses.Args b := by
  simp [clauses.Args]

theorem clauses_Args_forAlias (tok table : String) (a : clauses) :
    clauses.Args (a.map (clause.forAlias tok table)) = clauses.Args a := by
  simp [clauses.Args, clause.forAlias, Function.comp_def]

/-- C17 (as amended): for a non-raw query `q`, a suffix without `%`, an instant `t` and any
table, predicate and arguments: `Join` called after `QueryHistory(q, t)` appends exactly one
join clause at the end of the join list; its type is `JOIN`, its table is the table name, the
suffix, ` AS ` and the table name; its ON list is the given predicate followed by the query's
global predicates in order (the alias token of each fragment replaced by the table name); its
arguments are the given arguments, then the arguments of the global predicates `q` already
held, then `t, t`; the where clauses and the table pattern stay as `QueryHistory` left them. -/
theorem join_after_QueryHistory {σ κ : Type} (tok : String) (h : historyDB σ κ) (q : Query)
    (t : Nat) (table onSQL : String) (args : List GoValue)
    (hraw : q.RawSQL.Fragment = "") (hS : '%' ∉ h.Suffix.data) :
    ∃ c : joinClause,
      ((h.QueryHistory q t).Join tok table onSQL args).joinClauses = q.joinClauses ++ [c] ∧
      c.JoinType = "JOIN" ∧
      c.Table = table ++ h.Suffix ++ " AS " ++ table ∧
      c.On = { Fragment := onSQL, Arguments := args }
        :: (h.QueryHistory q t).globalClauses.map (clause.forAlias tok table) ∧
      c.Args = args ++ clauses.Args q.globalClauses ++ [GoValue.time t, GoValue.time t] ∧
      ((h.QueryHistory q t).Join tok table onSQL args).whereClauses
        = (h.QueryHistory q t).whereClauses ∧
      ((h.QueryHistory q t).Join tok table onSQL args).tablePattern
        = (h.QueryHistory q t).tablePattern := by
  have hr : (h.QueryHistory q t).RawSQL.Fragment = "" := hraw
  refine ⟨{ JoinType := "JOIN"
            Table := fmt.Sprintf ((h.QueryHistory q t).tablePattern ++ " AS %v") [table, table]
            On := { Fragment := onSQL, Arguments := args }
              :: (h.QueryHistory q t).globalClauses.map (clause.forAlias tok table) },
    ?_, rfl, ?_, rfl, ?_, ?_, ?_⟩
  · rw [Query.Join, join_of_not_raw tok _ _ table onSQL args hr]
    rfl
  · exact Sprintf_history_pattern h.Suffix table hS
  · show clauses.Args ({ Fragment := onSQL, Arguments := args }
        :: (h.QueryHistory q t).globalClauses.map (clause.forAlias tok table)) = _
    have hcons : clauses.Args ({ Fragment := onSQL, Arguments := args }
        :: (h.QueryHistory q t).globalClauses.map (clause.forAlias tok table))
        = args ++ clauses.Args
            ((h.QueryHistory q t).globalClauses.map (clause.forAlias tok table)) := by
      simp [clauses.Args]
    rw [hcons, clauses_Args_forAlias]
    simp [historyDB.QueryHistory, clauses_Args_append, clauses.Args]
  · rw [Query.Join, join_of_not_raw tok _ _ table onSQL args hr]
  · rw [Query.Join, join_of_not_raw tok _ _ table onSQL args hr]

theorem join_after_QueryHistory_witness :
    emptyQuery.RawSQL.Fragment = "" ∧ '%' ∉ (demoHistory Unit).Suffix.data ∧
    ∃ c : joinClause,
      (((demoHistory Unit).QueryHistory emptyQuery 2).Join "%TABLE_NAME%" "b" "b.x = ?"
          [GoValue.int 5]).joinClauses = [c] ∧
      c.Table = "b" ++ "_history" ++ " AS " ++ "b" ∧
      c.Args = [GoValue.int 5, GoValue.time 2, GoValue.time 2] := by
  obtain ⟨c, hj, _, ht, _, ha, _⟩ :=
    join_after_QueryHistory "%TABLE_NAME%" (demoHistory Unit) emptyQuery 2 "b" "b.x = ?"
      [GoValue.int 5] rfl (by decide)
  exact ⟨rfl, by decide, c, hj, ht, ha⟩

/-- C17 (as stated) fails: when the query already holds a global predicate (here from an earlier
`QueryHistory` at instant 1), the join added after `QueryHistory(q, 2)` has the arguments
`5, 1, 1, 2, 2`, not `5, 2, 2`. -/
theorem join_args_include_earlier_globals :
    ((demoHistory Unit).QueryHistory emptyQuery 1).RawSQL.Fragment = "" ∧
    '%' ∉ (demoHistory Unit).Suffix.data ∧
    (((demoHistory Unit).QueryHistory ((demoHistory Unit).QueryHistory emptyQuery 1) 2).Join
        "%TABLE_NAME%" "b" "b.x = ?" [GoValue.int 5]).joinClauses.map joinClause.Args
      = [[GoValue.int 5, GoValue.time 1, GoValue.time 1, GoValue.time 2, GoValue.time 2]] ∧
    (((demoHistory Unit).QueryHistory ((demoHistory Unit).QueryHistory emptyQuery 1) 2).Join
        "%TABLE_NAME%" "b" "b.x = ?" [GoValue.int 5]).joinClauses.map joinClause.Args
      ≠ [[GoValue.int 5] ++ [GoValue.time 2, GoValue.time 2]] := by
  have hv : (((demoHistory Unit).QueryHistory ((demoHistory Unit).QueryHistory emptyQuery 1)
        2).Join "%TABLE_NAME%" "b" "b.x = ?" [GoValue.int 5]).joinClauses.map joinClause.Args
      = [[GoValue.int 5, GoValue.time 1, GoValue.time 1, GoValue.time 2, GoValue.time 2]] :=
    rfl
  refine ⟨rfl, by decide, hv, ?_⟩
  rw [hv]
  decide

/-! ## RenameTable on lists of any length -/

/-- C19 (as amended): `RenameTable` returns a result for every list of at least two tables; it
decides its guard on the first two names only and, when it goes on, hands the wrapped
translator the list with the suffix appended to the first two names and the other entries as
they were. On the empty list, and on a one-element list whose name does not end with the suffix,
it stops on an out-of-range index and returns nothing. On a one-element list whose name ends
with the suffix it returns the error "operation already applies to historical tables" without
touching the wrapped translator: entry 1 is never read. -/
theorem renameTable_by_length {τ : Type} (h : historyTranslator τ) (st : τ) :
    (∀ t0 t1 rest, ∃ r, h.RenameTable (t0 :: t1 :: rest) st = some r) ∧
    (∀ t0 t1 rest,
      (HasSuffix t0.Name h.Suffix = true ∨ HasSuffix t1.Name h.Suffix = true) →
      h.RenameTable (t0 :: t1 :: rest) st
        = some (("", some (GoError.new "operation already applies to historical tables")),
            st)) ∧
    (∀ t0 t1 rest,
      HasSuffix t0.Name h.Suffix = false → HasSuffix t1.Name h.Suffix = false →
      (h.Translator.RenameTable (t0 :: t1 :: rest) st).1.2 = none →
      h.RenameTable (t0 :: t1 :: rest) st
        = some (((h.Translator.RenameTable (t0 :: t1 :: rest) st).1.1 ++ "\n"
              ++ (h.Translator.RenameTable
                  ({ t0 with Name := t0.Name ++ h.Suffix }
                    :: { t1 with Name := t1.Name ++ h.Suffix } :: rest)
                  (h.Translator.RenameTable (t0 :: t1 :: rest) st).2).1.1,
              (h.Translator.RenameTable
                  ({ t0 with Name := t0.Name ++ h.Suffix }
                    :: { t1 with Name := t1.Name ++ h.Suffix } :: rest)
                  (h.Translator.RenameTable (t0 :: t1 :: rest) st).2).1.2),
            (h.Translator.RenameTable
              ({ t0 with Name := t0.Name ++ h.Suffix }
                :: { t1 with Name := t1.Name ++ h.Suffix } :: rest)
              (h.Translator.RenameTable (t0 :: t1 :: rest) st).2).2)) ∧
    h.RenameTable [] st = none ∧
    (∀ t0, HasSuffix t0.Name h.Suffix = false → h.RenameTable [t0] st = none) ∧
    (∀ t0, HasSuffix t0.Name h.Suffix = true →
      h.RenameTable [t0] st
        = some (("", some (GoError.new "operation already applies to historical tables")),
            st)) := by
  refine ⟨?_, ?_, ?_, rfl, ?_, ?_⟩
  · intro t0 t1 rest
    simp only [historyTranslator.RenameTable]
    split
    · exact ⟨_, rfl⟩
    · split <;> exact ⟨_, rfl⟩
  · intro t0 t1 rest hs
    have hor : (HasSuffix t0.Name h.Suffix || HasSuffix t1.Name h.Suffix) = true := by
      rcases hs with hs | hs <;> simp [hs]
    simp only [historyTranslator.RenameTable, hor, if_true]
    rfl
  · intro t0 t1 rest h0 h1 hb
    simp only [historyTranslator.RenameTable, h0, h1, Bool.or_self, Bool.false_eq_true,
      if_false, hb]
  · intro t0 h0
    simp [historyTranslator.RenameTable, h0]
  · intro t0 h0
    simp only [historyTranslator.RenameTable, h0, if_true]
    rfl

theorem renameTable_by_length_witness :
    HasSuffix usersTable.Name listingHistory.Suffix = false ∧
    listingHistory.RenameTable [usersTable] [] = none ∧
    listingHistory.RenameTable [] [] = none :=
  ⟨by decide,
   (renameTable_by_length listingHistory []).2.2.2.2.1 usersTable (by decide),
   (renameTable_by_length listingHistory []).2.2.2.1⟩

/-- C19 (as stated) fails: on a one-element list whose name ends with the suffix `RenameTable`
returns an error value. -/
theorem renameTable_single_suffixed_returns_error :
    listingHistory.RenameTable [{ usersTable with Name := "users_history" }] []
      = some (("", some (GoError.new "operation already applies to historical tables")), []) ∧
    [{ usersTable with Name := "users_history" }].length < 2 := by
  constructor
  · rfl
  · decide

/-! ## Rendering of join clauses -/

theorem strings_Join_cons (a : String) (l : List String) (sep : String) (hl : l ≠ []) :
    strings.Join (a :: l) sep = a ++ sep ++ strings.Join l sep := by
  cases l with
  | nil => exact absurd rfl hl
  | cons b rest => rfl

theorem strings_Join_data (xs : List String) (sep : String) :
    (strings.Join xs sep).data = List.intercalate sep.data (xs.map String.data) := by
  induction xs with
  | nil => rfl
  | cons a rest ih =>
    cases rest with
    | nil => simp [strings.Join, List.intercalate]
    | cons b rest =>
      rw [strings_Join_cons a (b :: rest) sep (List.cons_ne_nil _ _)]
      simp only [String.data_append, ih, List.intercalate, List.map_cons,
        List.intersperse_cons₂, List.flatten_cons, List.append_assoc]

theorem strings_Join_split (xs : List String) (y : String) (zs : List String) (sep : String) :
    ∃ P Q : List Char, (strings.Join (xs ++ y :: zs) sep).data = P ++ y.data ++ Q ∧
      P.count '?' = (xs.map (fun x => x.data.count '?' + sep.data.count '?')).sum := by
  induction xs with
  | nil =>
    cases zs with
    | nil => exact ⟨[], [], by simp [strings.Join], rfl⟩
    | cons z zs =>
      refine ⟨[], (sep ++ strings.Join (z :: zs) sep).data, ?_, rfl⟩
      rw [List.nil_append, strings_Join_cons y (z :: zs) sep (List.cons_ne_nil _ _)]
      simp [String.data_append]
  | cons x xs ih =>
    obtain ⟨P, Q, hPQ, hP⟩ := ih
    refine ⟨x.data ++ sep.data ++ P, Q, ?_, ?_⟩
    · rw [List.cons_append, strings_Join_cons x _ sep (by simp)]
      simp only [String.data_append, hPQ, List.append_assoc]
    · simp only [List.count_append, hP, List.map_cons, List.sum_cons]

theorem placeholders_append (a b : String) :
    placeholders (a ++ b) = placeholders a + placeholders b := by
  simp [placeholders, String.data_append]

theorem clauses_Args_length (a : clauses) :
    (clauses.Args a).length = (a.map (fun e => e.Arguments.length)).sum := by
  simp [clauses.Args, List.length_flatten, Function.comp_def]

/-- C14 (as amended): for every join clause `c`: `String()` is `JoinType`, a blank and `Table`
when the ON list is empty, and otherwise that text followed by ` ON ` and the ON fragments in
list order with ` AND ` between them; `Args()` is the concatenation of the ON predicates'
arguments in list order. When the join type and table hold no `?` and each ON predicate before
a predicate `d` has as many `?` as arguments, the text before the fragment of `d` holds exactly
as many placeholders as there are arguments before those of `d`, so the arguments of `d` sit at
the positions of its placeholders. For a list of join clauses, `String()` is the renderings in
list order with single blanks between them. -/
theorem joinClause_rendering (c : joinClause) (cs : joinClauses) :
    (c.On = [] → c.String = c.JoinType ++ " " ++ c.Table) ∧
    (c.On ≠ [] →
      c.String.data = (c.JoinType ++ " " ++ c.Table ++ " ON ").data
        ++ List.intercalate " AND ".data (c.On.map (fun e => e.Fragment.data))) ∧
    c.Args = c.On.flatMap (fun e => e.Arguments) ∧
    (∀ (A : clauses) (d : clause) (B : clauses), c.On = A ++ d :: B →
      c.Args = clauses.Args A ++ d.Arguments ++ clauses.Args B ∧
      (placeholders c.JoinType = 0 → placeholders c.Table = 0 →
        (∀ e ∈ A, placeholders e.Fragment = e.Arguments.length) →
        ∃ P Q : String, c.String = P ++ d.Fragment ++ Q ∧
          placeholders P = (clauses.Args A).length)) ∧
    (joinClauses.String cs).data
      = List.intercalate " ".data (cs.map (fun j => j.String.data)) := by
  refine ⟨?_, ?_, ?_, ?_, ?_⟩
  · intro h0
    simp [joinClause.String, h0]
  · intro hne
    have hlen : c.On.length > 0 := List.length_pos.mpr hne
    simp only [joinClause.String, hlen, if_true, String.data_append, clauses.Join,
      strings_Join_data, List.map_map, Function.comp_def, List.append_assoc]
  · simp [joinClause.Args, clauses.Args, List.flatMap]
  · intro A d B hOn
    constructor
    · simp [joinClause.Args, hOn, clauses.Args]
    · intro hJ hT hA
      have hlen : c.On.length > 0 := by rw [hOn]; simp
      obtain ⟨P, Q, hPQ, hP⟩ := strings_Join_split (A.map (fun e => e.Fragment)) d.Fragment
        (B.map (fun e => e.Fragment)) " AND "
      refine ⟨⟨(c.JoinType ++ " " ++ c.Table ++ " ON ").data ++ P⟩, ⟨Q⟩, ?_, ?_⟩
      · have hstr : c.String
            = c.JoinType ++ " " ++ c.Table ++ (" ON " ++ clauses.Join c.On " AND ") := by
          simp only [joinClause.String, hlen, if_true]
        rw [hstr]
        apply String.ext
        simp only [String.data_append, clauses.Join, hOn, List.map_append, List.map_cons, hPQ,
          List.append_assoc]
      · have hsep : " AND ".data.count '?' = 0 := by decide
        have hblank : " ".data.count '?' = 0 := by decide
        have hon : " ON ".data.count '?' = 0 := by decide
        simp only [placeholders] at hJ hT hA
        simp only [placeholders, String.data_append, List.count_append, hJ, hT, hblank, hon, hP,
          hsep, List.map_map, Function.comp_def, Nat.add_zero, Nat.zero_add,
          clauses_Args_length]
        congr 1
        apply List.map_congr_left
        intro e he
        exact hA e he
  · simp only [joinClauses.String, strings_Join_data, List.map_map, Function.comp_def]

theorem joinClause_rendering_witness :
    placeholders "JOIN" = 0 ∧ placeholders "b AS b" = 0 ∧
    (∃ P Q : String,
      joinClause.String
          { JoinType := "JOIN", Table := "b AS b",
            On := [{ Fragment := "b.x = ?", Arguments := [GoValue.int 5] },
                   { Fragment := historyFragment,
                     Arguments := [GoValue.time 2, GoValue.time 2] }] }
        = P ++ historyFragment ++ Q ∧ placeholders P = 1) ∧
    joinClause.Args
        { JoinType := "JOIN", Table := "b AS b",
          On := [{ Fragment := "b.x = ?", Arguments := [GoValue.int 5] },
                 { Fragment := historyFragment,
                   Arguments := [GoValue.time 2, GoValue.time 2] }] }
      = [GoValue.int 5] ++ [GoValue.time 2, GoValue.time 2] ++ [] :=
  have H := (joinClause_rendering
    { JoinType := "JOIN", Table := "b AS b",
      On := [{ Fragment := "b.x = ?", Arguments := [GoValue.int 5] },
             { Fragment := historyFragment,
               Arguments := [GoValue.time 2, GoValue.time 2] }] } []).2.2.2.1
    [{ Fragment := "b.x = ?", Arguments := [GoValue.int 5] }]
    { Fragment := historyFragment, Arguments := [GoValue.time 2, GoValue.time 2] } [] rfl
  ⟨by decide, by decide, H.2 (by decide) (by decide) (by decide), H.1⟩

/-- C14 (as stated) fails: the join clause of `Join("b", "b.id IN (?)", 1, 2, 3)` after
`QueryHistory` renders three placeholders and has five arguments; the second placeholder is the
first one of the validity predicate, while the second argument still belongs to the join's own
predicate. -/
theorem placeholders_and_args_misaligned :
    (((demoHistory Unit).QueryHistory emptyQuery 2).Join "%TABLE_NAME%" "b" "b.id IN (?)"
        [GoValue.int 1, GoValue.int 2, GoValue.int 3]).joinClauses = [inListJoin] ∧
    inListJoin.String
      = "JOIN b_history AS b ON b.id IN (?) AND "
        ++ "created_at <= ? AND (deleted_at IS NULL OR deleted_at > ?)" ∧
    placeholders "JOIN b_history AS b ON b.id IN (?) AND " = 1 ∧
    placeholders inListJoin.String = 3 ∧
    inListJoin.Args
      = [GoValue.int 1, GoValue.int 2, GoValue.int 3, GoValue.time 2, GoValue.time 2] ∧
    placeholders inListJoin.String ≠ inListJoin.Args.length := by
  refine ⟨by decide, by decide, by decide, by decide, by decide, by decide⟩

/-! ## The history statements are parameterized -/

/-- C16: `insertHistory` and `deleteHistory` each issue one statement with exactly the two
arguments `t, id`, in that order. The SQL text is the same for any two instants and any two
models with the same table name, id column name and column set (whatever their id values).
When the spliced pieces hold no `?`, the text handed to `TranslateSQL` holds exactly two
placeholders: for the insert the first is the `? AS created_at` and the second closes
`WHERE id = ?`; for the close the first is `SET deleted_at = ?` and the second is the
`id = ?` of the `WHERE`. -/
theorem history_statements_positional {σ κ : Type} (C : ColumnsPkg κ) (S : store σ)
    (h : historyDB (σ × List ExecCall) κ) (s : σ × List ExecCall) (m : Model) (t : Nat) :
    (h.insertHistory C (recording S) s m t).1.2
      = s.2 ++ [{ sql := h.insertHistorySQL C m, args := [GoValue.time t, m.ID] }] ∧
    (h.deleteHistory (recording S) s m t).1.2
      = s.2 ++ [{ sql := h.deleteHistorySQL m, args := [GoValue.time t, m.ID] }] ∧
    (∀ (m2 : Model) (t2 : Nat), m.TableName = m2.TableName → m.IDField = m2.IDField →
      C.ForStruct m.Value m.TableName = C.ForStruct m2.Value m2.TableName →
      (insertCall C h m t).sql = (insertCall C h m2 t2).sql ∧
      (closeCall h m t).sql = (closeCall h m2 t2).sql) ∧
    (PlainPieces C h m →
      ∃ body X Y : String,
        h.insertHistorySQL C m = h.dialect.TranslateSQL body ∧
        body = X ++ "? AS " ++ h.dialect.Quote "created_at" ++ Y
          ++ h.dialect.Quote m.IDField ++ " = ?" ∧
        placeholders X = 0 ∧ placeholders Y = 0 ∧ placeholders body = 2) ∧
    (PlainPieces C h m →
      ∃ body X Y : String,
        h.deleteHistorySQL m = h.dialect.TranslateSQL body ∧
        body = X ++ h.dialect.Quote "deleted_at" ++ " = ?" ++ Y
          ++ h.dialect.Quote m.IDField ++ " = ? AND " ++ h.dialect.Quote "deleted_at"
          ++ " IS NULL;" ∧
        placeholders X = 0 ∧ placeholders Y = 0 ∧ placeholders body = 2) := by
  have l1 : placeholders "INSERT INTO " = 0 := by decide
  have l2 : placeholders " (" = 0 := by decide
  have l3 : placeholders ", " = 0 := by decide
  have l4 : placeholders ")\n\t\tSELECT " = 0 := by decide
  have l5 : placeholders "? AS " = 1 := by decide
  have l6 : placeholders ", NULL AS " = 0 := by decide
  have l7 : placeholders "\n\t\tFROM " = 0 := by decide
  have l8 : placeholders " WHERE " = 0 := by decide
  have l9 : placeholders " = ?" = 1 := by decide
  have l10 : placeholders "UPDATE " = 0 := by decide
  have l11 : placeholders "\n\t\tSET " = 0 := by decide
  have l12 : placeholders "\n\t\tWHERE " = 0 := by decide
  have l13 : placeholders " = ? AND " = 1 := by decide
  have l14 : placeholders " IS NULL;" = 0 := by decide
  refine ⟨rfl, rfl, ?_, ?_, ?_⟩
  · intro m2 t2 htbl hidf hcols
    rw [htbl] at hcols
    simp only [insertCall, closeCall, historyDB.insertHistorySQL, historyDB.deleteHistorySQL,
      htbl, hidf, hcols]
    exact ⟨trivial, trivial⟩
  · intro hp
    have h1 := hp.shadow
    have h2 := hp.table
    have h3 := hp.idField
    have h4 := hp.createdAt
    have h5 := hp.deletedAt
    have h6 := hp.writeable
    have h7 := hp.readable
    have hlit : (", ? AS " : String) = ", " ++ "? AS " := by decide
    have hbody : h.dialect.TranslateSQL
          ("INSERT INTO " ++ h.dialect.Quote (m.TableName ++ h.Suffix) ++ " ("
            ++ C.QuotedString
              (C.Add (C.Writeable (C.Add (C.ForStruct m.Value m.TableName) m.IDField))
                m.IDField)
              h.dialect.Quote
            ++ ", " ++ h.dialect.Quote "created_at" ++ ", " ++ h.dialect.Quote "deleted_at"
            ++ ")\n\t\tSELECT "
            ++ C.SelectString (C.Readable (C.Add (C.ForStruct m.Value m.TableName) m.IDField))
            ++ ", " ++ "? AS " ++ h.dialect.Quote "created_at"
            ++ (", NULL AS " ++ h.dialect.Quote "deleted_at" ++ "\n\t\tFROM "
              ++ h.dialect.Quote m.TableName ++ " WHERE ")
            ++ h.dialect.Quote m.IDField ++ " = ?")
        = h.insertHistorySQL C m := by
      simp only [historyDB.insertHistorySQL, hlit, String.append_assoc]
    refine ⟨_, _, _, hbody.symm, rfl, ?_, ?_, ?_⟩
    · simp only [placeholders_append, l1, l2, l3, l4, h1, h4, h5, h6, h7]
    · simp only [placeholders_append, l6, l7, l8, h2, h5]
    · simp only [placeholders_append, l1, l2, l3, l4, l5, l6, l7, l8, l9, h1, h2, h3, h4, h5,
        h6, h7]
  · intro hp
    have h1 := hp.shadow
    have h3 := hp.idField
    have h5 := hp.deletedAt
    have hbody : h.dialect.TranslateSQL
          ("UPDATE " ++ h.dialect.Quote (m.TableName ++ h.Suffix) ++ "\n\t\tSET "
            ++ h.dialect.Quote "deleted_at" ++ " = ?" ++ "\n\t\tWHERE "
            ++ h.dialect.Quote m.IDField ++ " = ? AND " ++ h.dialect.Quote "deleted_at"
            ++ " IS NULL;")
        = h.deleteHistorySQL m := by
      simp only [historyDB.deleteHistorySQL, String.append_assoc]
    refine ⟨_, _, _, hbody.symm, rfl, ?_, l12, ?_⟩
    · simp only [placeholders_append, l10, l11, h1]
    · simp only [placeholders_append, l10, l11, l12, l9, l13, l14, h1, h3, h5]

theorem demo_plainPieces :
    PlainPieces demoColumns (demoHistory (Unit × List ExecCall)) demoModel where
  shadow := by decide
  table := by decide
  idField := by decide
  createdAt := by decide
  deletedAt := by decide
  writeable := by decide
  readable := by decide

theorem history_statements_positional_witness :
    PlainPieces demoColumns (demoHistory (Unit × List ExecCall)) demoModel ∧
    placeholders ((demoHistory (Unit × List ExecCall)).insertHistorySQL demoColumns demoModel)
      = 2 ∧
    (insertCall demoColumns (demoHistory (Unit × List ExecCall)) demoModel 7).sql
      = (insertCall demoColumns (demoHistory (Unit × List ExecCall))
          { demoModel with ID := GoValue.int 2 } 9).sql := by
  have H := history_statements_positional demoColumns okStore
    (demoHistory (Unit × List ExecCall)) ((), []) demoModel 7
  obtain ⟨body, _, _, hsql, _, _, _, hcount⟩ := H.2.2.2.1 demo_plainPieces
  refine ⟨demo_plainPieces, ?_, (H.2.2.1 { demoModel with ID := GoValue.int 2 } 9 rfl rfl
    rfl).1⟩
  rw [hsql]
  exact hcount

/-! ## The history scope and the history mode -/

/-- C13: for every instant `t` and query `q`: when the connection's dialect is a `historyDB`
`h`, `HistoryScope(t)(q)` is `q` with its fields replaced by `h.QueryHistory(q, t)`; when the
dialect does not expose `QueryHistory`, it stops with the panic "may only query history for
history dialect" and returns no query. -/
theorem HistoryScope_history_or_panic {σ κ : Type} (t : Nat) (q : QueryOn σ κ) :
    (∀ h, q.Connection.Dialect.asHistoryDB = some h →
      HistoryScope t q = Except.ok { q with fields := h.QueryHistory q.fields t }) ∧
    (q.Connection.Dialect.asHistoryDB = none →
      HistoryScope t q = Except.error "may only query history for history dialect" ∧
      ∀ r, HistoryScope t q ≠ Except.ok r) := by
  constructor
  · intro h hh
    simp only [HistoryScope, hh]
  · intro hn
    have hE : HistoryScope t q = Except.error "may only query history for history dialect" := by
      simp only [HistoryScope, hn]
    refine ⟨hE, ?_⟩
    intro r hr
    rw [hE] at hr
    cases hr

theorem HistoryScope_history_or_panic_witness :
    plainConnection.Dialect.asHistoryDB = none ∧
    (HistoryScope 5 { Connection := plainConnection, fields := emptyQuery }
      = Except.error "may only query history for history dialect") ∧
    historyConnection.Dialect.asHistoryDB = some (demoHistory Unit) ∧
    (HistoryScope 5 { Connection := historyConnection, fields := emptyQuery }
      = Except.ok { Connection := historyConnection
                    fields := (demoHistory Unit).QueryHistory emptyQuery 5 }) :=
  ⟨rfl,
   ((HistoryScope_history_or_panic 5
      { Connection := plainConnection, fields := emptyQuery }).2 rfl).1,
   rfl,
   (HistoryScope_history_or_panic 5
      { Connection := historyConnection, fields := emptyQuery }).1 (demoHistory Unit) rfl⟩

theorem lookup_mapDelete_self (m : List (String × String)) (k : String) :
    (mapDelete m k).lookup k = none := by
  induction m with
  | nil => rfl
  | cons a m ih =>
    obtain ⟨a1, a2⟩ := a
    by_cases ha : a1 = k
    · subst ha
      simpa [mapDelete, List.filter_cons] using ih
    · have hk : (k == a1) = false := by simpa using fun hEq : k = a1 => ha hEq.symm
      have ih1 : List.lookup k (List.filter (fun kv => kv.1 != k) m) = none := ih
      simp [mapDelete, List.filter_cons, ha, List.lookup_cons, hk, ih1]

theorem lookup_mapDelete_other (m : List (String × String)) (k k1 : String) (hk : k1 ≠ k) :
    (mapDelete m k).lookup k1 = m.lookup k1 := by
  induction m with
  | nil => rfl
  | cons a m ih =>
    obtain ⟨a1, a2⟩ := a
    have ih1 : List.lookup k1 (List.filter (fun kv => kv.1 != k) m) = List.lookup k1 m := ih
    by_cases ha : a1 = k
    · subst ha
      have hh : (k1 == a1) = false := by simpa using hk
      simp [mapDelete, List.filter_cons, List.lookup_cons, hh, ih1]
    · simp [mapDelete, List.filter_cons, ha, List.lookup_cons, ih1]

/-- C15: the mode registered under "history" replaces the connection's dialect with a
`historyDB` that wraps the previous dialect and whose suffix is the value of the option
`suffix` when that value is not empty and `_history` when the option is absent or empty, so
never the empty string. The installed dialect's `Create`, `Update` and `Destroy` are the
overrides of that `historyDB` (the base operation of the previous dialect followed by the
history statements), its `Quote` and `TranslateSQL` are those of the previous dialect. The mode
removes the key `suffix` from the options, leaves every other option as it was, and returns no
error. -/
theorem historyMode_installs_historyDB {σ κ : Type} (C : ColumnsPkg κ) (S : store σ)
    (clock : σ → Nat) (c : Connection σ κ) (deets : ConnectionDetails) :
    modes C S clock "history" = some (historyMode C S clock) ∧
    (∃ hdb : historyDB σ κ,
      (historyMode C S clock c deets).conn.Dialect.asHistoryDB = some hdb ∧
      hdb.dialect = c.Dialect.methods ∧
      hdb.Suffix ≠ "" ∧
      (∀ v, deets.Options.lookup "suffix" = some v → v ≠ "" → hdb.Suffix = v) ∧
      (deets.Options.lookup "suffix" = some "" → hdb.Suffix = "_history") ∧
      (deets.Options.lookup "suffix" = none → hdb.Suffix = "_history") ∧
      (∀ s m cols, (historyMode C S clock c deets).conn.Dialect.methods.Create s m cols
        = hdb.Create C S s m cols (clock (c.Dialect.methods.Create s m cols).store)) ∧
      (∀ s m cols, (historyMode C S clock c deets).conn.Dialect.methods.Update s m cols
        = hdb.Update C S s m cols (clock (c.Dialect.methods.Update s m cols).store)) ∧
      (∀ s m, (historyMode C S clock c deets).conn.Dialect.methods.Destroy s m
        = hdb.Destroy S s m (clock (c.Dialect.methods.Destroy s m).store)) ∧
      (historyMode C S clock c deets).conn.Dialect.methods.Quote = c.Dialect.methods.Quote ∧
      (historyMode C S clock c deets).conn.Dialect.methods.TranslateSQL
        = c.Dialect.methods.TranslateSQL) ∧
    (historyMode C S clock c deets).deets.Options.lookup "suffix" = none ∧
    (∀ k, k ≠ "suffix" →
      (historyMode C S clock c deets).deets.Options.lookup k = deets.Options.lookup k) ∧
    (historyMode C S clock c deets).err = none := by
  refine ⟨by simp [modes],
    ⟨_, rfl, rfl, ?_, ?_, ?_, ?_, fun _ _ _ => rfl, fun _ _ _ => rfl, fun _ _ => rfl, rfl,
      rfl⟩,
    lookup_mapDelete_self _ _, fun k hk => lookup_mapDelete_other _ _ k hk, rfl⟩
  · by_cases hv : mapValue deets.Options "suffix" = ""
    · simp [hv]
    · simp [hv]
  · intro v hv hne
    simp [mapValue, hv, hne]
  · intro hv
    simp [mapValue, hv]
  · intro hv
    simp [mapValue, hv]

theorem historyMode_installs_historyDB_witness :
    ((historyMode demoColumns (recording okStore) (fun _ => 7) loggedConnection
        { Options := [("pool", "5"), ("suffix", "_versions")] }).conn.Dialect.asHistoryDB.map
        (fun hdb => hdb.Suffix)) = some "_versions" ∧
    ((historyMode demoColumns (recording okStore) (fun _ => 7) loggedConnection
        { Options := [("pool", "5"), ("suffix", "")] }).conn.Dialect.asHistoryDB.map
        (fun hdb => hdb.Suffix)) = some "_history" ∧
    (historyMode demoColumns (recording okStore) (fun _ => 7) loggedConnection
        { Options := [("pool", "5"), ("suffix", "_versions")] }).deets.Options
      = [("pool", "5")] ∧
    (historyMode demoColumns (recording okStore) (fun _ => 7) loggedConnection
        { Options := [("pool", "5"), ("suffix", "_versions")] }).deets.Options.lookup "suffix"
      = none ∧
    ((historyMode demoColumns (recording okStore) (fun _ => 7) loggedConnection
        { Options := [("pool", "5")] }).conn.Dialect.methods.Update ((), []) demoModel
        []).store.2
      = [closeCall (demoHistory (Unit × List ExecCall)) demoModel 7,
         insertCall demoColumns (demoHistory (Unit × List ExecCall)) demoModel 7] ∧
    (loggedConnection.Dialect.methods.Update ((), []) demoModel []).store.2 = [] :=
  ⟨rfl, rfl, rfl,
   (historyMode_installs_historyDB demoColumns (recording okStore) (fun _ => 7) loggedConnection
      { Options := [("pool", "5"), ("suffix", "_versions")] }).2.2.1,
   rfl, rfl⟩

end Pop
